import Mathlib

/-!
# Verification of the deduplication / consolidation core

Shallow embedding of `src/processing/deduplication.py`: address
normalization (`AddressNormalizer`), geographic blocking
(`GeographicBlocker`), duplicate detection (`DuplicateDetector`) and record
consolidation (`MasterRecordBuilder`), together with proofs of the spec's
testable properties.

Modelling conventions:
* pandas nullable cells become `Option` values (`None`/`NaN` ↦ `none`);
  Python truthiness of a string cell is `some s` with `s ≠ ""`.
* machine floats become `ℚ`; the floating-point haversine
  (`GeographicBlocker.calculate_distance_meters`, float trigonometry) is not
  exactly statable, so every function that consumes it takes the distance
  function as an explicit parameter `dist`.
* the external `usaddress.tag` parser is likewise a parameter
  `tag : String → Option ParsedAddr`, `none` standing for the exception path.
* `rapidfuzz.fuzz.ratio` is the normalized indel similarity
  `100·(1 - indel(s₁,s₂)/(|s₁|+|s₂|)) = 200·lcs(s₁,s₂)/(|s₁|+|s₂|)`, and
  `fuzz.token_sort_ratio` applies it to the whitespace tokens sorted and
  rejoined with single spaces; both are implemented here on `List Char`.
* DataFrames become `List Record`; the row index is the list position.
-/

namespace ScrappingLands

/-! ## Character / string helpers (Python `str` and `re` operations) -/

/-- Python regex `\w` character class (ASCII fragment). -/
def isWordChar (c : Char) : Bool := c.isAlphanum || c = '_'

/-- `str.lower()` on the character list of a string. -/
def lowerChars (l : List Char) : List Char := l.map Char.toLower

/-- Worker for `wsSplit`: `cur` is the reversed current token. -/
def wsSplitAux (cur : List Char) : List Char → List (List Char)
  | [] => if cur = [] then [] else [cur.reverse]
  | c :: cs =>
    if c.isWhitespace then
      if cur = [] then wsSplitAux [] cs else cur.reverse :: wsSplitAux [] cs
    else wsSplitAux (c :: cur) cs

/-- Python `str.split()` (no argument): split on whitespace runs, no empty
tokens. -/
def wsSplit (l : List Char) : List (List Char) := wsSplitAux [] l

/-- `' '.join(tokens)`. -/
def joinSpace : List (List Char) → List Char
  | [] => []
  | [t] => t
  | t :: ts => t ++ ' ' :: joinSpace ts

/-- `str.strip()`: remove leading and trailing whitespace. -/
def trimChars (l : List Char) : List Char :=
  ((l.dropWhile Char.isWhitespace).reverse.dropWhile Char.isWhitespace).reverse

/-- Lexicographic strict order on character lists, as Python compares
strings (by code point). -/
def lexLt : List Char → List Char → Bool
  | [], [] => false
  | [], _ :: _ => true
  | _ :: _, [] => false
  | a :: as, b :: bs => if a < b then true else if b < a then false else lexLt as bs

/-- Insert a token into an ascending-sorted token list (used to model
Python `sorted`; duplicates keep no particular side, which is harmless as
equal string keys are identical values). -/
def insertTok (a : List Char) : List (List Char) → List (List Char)
  | [] => [a]
  | b :: t => if lexLt a b then a :: b :: t else b :: insertTok a t

/-- Python `sorted(tokens)`. -/
def sortTokens : List (List Char) → List (List Char)
  | [] => []
  | a :: t => insertTok a (sortTokens t)

/-! ## rapidfuzz model -/

/-- Fuel-indexed longest-common-subsequence length; structural in the fuel
so that the kernel can evaluate it.  `lcsChars` supplies sufficient fuel. -/
def lcsF : Nat → List Char → List Char → Nat
  | 0, _, _ => 0
  | _ + 1, [], _ => 0
  | _ + 1, _ :: _, [] => 0
  | f + 1, x :: xs, y :: ys =>
    if x = y then lcsF f xs ys + 1
    else max (lcsF f (x :: xs) ys) (lcsF f xs (y :: ys))

/-- Longest common subsequence length of two character lists. -/
def lcsChars (a b : List Char) : Nat := lcsF (a.length + b.length) a b

/-- `rapidfuzz.fuzz.ratio` (normalized indel similarity, 0–100 scale):
`100·(1 - indel/(|a|+|b|)) = 200·lcs/(|a|+|b|)`; `100` on two empty
strings, as in the library. -/
def fuzzRatioChars (a b : List Char) : ℚ :=
  if a.length + b.length = 0 then 100
  else (200 * lcsChars a b : ℚ) / (a.length + b.length : ℚ)

/-- `rapidfuzz.fuzz.ratio` on strings. -/
def fuzz_ratio (s1 s2 : String) : ℚ := fuzzRatioChars s1.data s2.data

/-- `rapidfuzz.fuzz.token_sort_ratio`: sort the whitespace-separated words
of each string, rejoin with single spaces, then `fuzz.ratio`. -/
def token_sort_ratio (s1 s2 : String) : ℚ :=
  fuzzRatioChars (joinSpace (sortTokens (wsSplit s1.data)))
    (joinSpace (sortTokens (wsSplit s2.data)))

/-! ## Data model: one row of `parks_raw` -/

/-- One raw listing row as read by `process_parks_raw_to_master` (nullable
SQL cells as `Option`). -/
structure Record where
  source : String := ""
  external_id : Option String := none
  name : Option String := none
  park_type : Option String := none
  address : Option String := none
  city : Option String := none
  state : Option String := none
  zip_code : Option String := none
  county : Option String := none
  latitude : Option ℚ := none
  longitude : Option ℚ := none
  phone : Option String := none
  website : Option String := none
  email : Option String := none
  business_status : Option String := none
  rating : Option ℚ := none
  total_reviews : Option Int := none
  address_normalized : Option String := none
deriving DecidableEq, Inhabited

/-- Row lookup `df.loc[i]` with the DataFrame as a list and the index as
the position. -/
def rowAt (df : List Record) (i : Nat) : Record := df.getD i default

/-- Python truthiness of a nullable string cell (`None`/`NaN` and `''` are
falsy). -/
def optStrTruthy : Option String → Bool
  | none => false
  | some s => s ≠ ""

/-- Python truthiness of a nullable numeric cell (`None` and `0.0` are
falsy). -/
def optRatTruthy : Option ℚ → Bool
  | none => false
  | some x => x ≠ 0

/-! ## DuplicateDetector -/

/-- The stopword list of `DuplicateDetector.normalize_name`. -/
def nameStopwords : List String :=
  ["rv", "park", "mobile", "home", "trailer", "campground",
   "resort", "the", "a", "an", "and", "&"]

/-- `DuplicateDetector.normalize_name`: lowercase, drop stopwords, strip
punctuation (`re.sub(r'[^\w\s]', '')`), strip outer whitespace. -/
def normalize_name (name : Option String) : String :=
  match name with
  | none => ""
  | some s =>
    if s = "" then ""
    else
      let words := wsSplit (lowerChars s.data)
      let kept := words.filter (fun w => ¬ nameStopwords.contains (String.mk w))
      let joined := joinSpace kept
      String.mk (trimChars (joined.filter (fun c => isWordChar c || c.isWhitespace)))

/-- `pd.notna(lat) and pd.notna(lon)` for one row. -/
def hasCoords (r : Record) : Bool := r.latitude.isSome && r.longitude.isSome

/-- Final fallthrough of `are_duplicates`: a near-exact name match (≥ 95)
is sufficient on its own. -/
def nameOnlyResult (name_similarity : ℚ) : Bool × ℚ :=
  if name_similarity ≥ 95 then (true, name_similarity / 100) else (false, 0)

/-- Coordinate branch of `are_duplicates` (both rows have coordinates):
too far (`> distance_threshold`) is a rejection, otherwise the confidence
mixes name similarity (0.7) with a linearly decaying distance score (0.3). -/
def coordResult (dist : ℚ → ℚ → ℚ → ℚ → ℚ) (distance_threshold : ℚ)
    (name_similarity : ℚ) (row1 row2 : Record) : Bool × ℚ :=
  if dist (row1.latitude.getD 0) (row1.longitude.getD 0)
      (row2.latitude.getD 0) (row2.longitude.getD 0) > distance_threshold then
    (false, 0)
  else
    (true, (name_similarity * (7/10) +
      (max 0 (100 - dist (row1.latitude.getD 0) (row1.longitude.getD 0)
        (row2.latitude.getD 0) (row2.longitude.getD 0) / distance_threshold * 100))
        * (3/10)) / 100)

/-- Address branch of `are_duplicates` (coordinates unavailable): compare
the normalized address strings when both are truthy, else fall through to
the near-exact name rule. -/
def addrResult (name_similarity : ℚ) (row1 row2 : Record) : Bool × ℚ :=
  if optStrTruthy row1.address_normalized ∧ optStrTruthy row2.address_normalized then
    if fuzz_ratio (row1.address_normalized.getD "") (row2.address_normalized.getD "")
        > 80 then
      (true, (name_similarity * (6/10) +
        fuzz_ratio (row1.address_normalized.getD "")
          (row2.address_normalized.getD "") * (4/10)) / 100)
    else nameOnlyResult name_similarity
  else nameOnlyResult name_similarity

/-- `DuplicateDetector.are_duplicates`.  `dist` models
`GeographicBlocker.calculate_distance_meters` (haversine on floats).
Returns `(is_duplicate, confidence_score)`. -/
def are_duplicates (dist : ℚ → ℚ → ℚ → ℚ → ℚ)
    (name_threshold distance_threshold : ℚ) (row1 row2 : Record) : Bool × ℚ :=
  if normalize_name row1.name = "" ∨ normalize_name row2.name = "" then (false, 0)
  else if token_sort_ratio (normalize_name row1.name) (normalize_name row2.name)
      < name_threshold then (false, 0)
  else if hasCoords row1 && hasCoords row2 then
    coordResult dist distance_threshold
      (token_sort_ratio (normalize_name row1.name) (normalize_name row2.name))
      row1 row2
  else
    addrResult
      (token_sort_ratio (normalize_name row1.name) (normalize_name row2.name))
      row1 row2

/-- Inner loop of `DuplicateDetector.find_duplicate_groups`: scan every
index of the block, skip processed ones, absorb positive matches into the
seed's group while marking them processed.  Returns the absorbed members
(in scan order) and the updated processed set. -/
def dupInner (dist : ℚ → ℚ → ℚ → ℚ → ℚ) (df : List Record) (row1 : Record) :
    List Nat → List Nat → List Nat × List Nat
  | [], processed => ([], processed)
  | o :: t, processed =>
    if o ∈ processed then dupInner dist df row1 t processed
    else if (are_duplicates dist 85 500 row1 (rowAt df o)).1 then
      let r := dupInner dist df row1 t (o :: processed)
      (o :: r.1, r.2)
    else dupInner dist df row1 t processed

/-- Outer loop of `find_duplicate_groups`: each unprocessed index seeds a
group and absorbs its pairwise matches. -/
def dupOuter (dist : ℚ → ℚ → ℚ → ℚ → ℚ) (df : List Record) (block : List Nat) :
    List Nat → List Nat → List (List Nat)
  | [], _ => []
  | i :: t, processed =>
    if i ∈ processed then dupOuter dist df block t processed
    else
      let r := dupInner dist df (rowAt df i) block (i :: processed)
      (i :: r.1) :: dupOuter dist df block t r.2

/-- `DuplicateDetector.find_duplicate_groups` (thresholds are the call-site
defaults `85` / `500`). -/
def find_duplicate_groups (dist : ℚ → ℚ → ℚ → ℚ → ℚ) (df : List Record)
    (block_indices : List Nat) : List (List Nat) :=
  if block_indices.length ≤ 1 then block_indices.map (fun i => [i])
  else dupOuter dist df block_indices block_indices []

/-! ## GeographicBlocker -/

/-- Truthiness test `pd.notna(zip_code) and zip_code` used by the zip
blocking pass. -/
def zipNonEmpty : Option String → Bool
  | none => false
  | some s => s ≠ ""

/-- The distinct non-empty zip codes of the frame, in first-occurrence
order.  (`df.groupby` lists group keys in sorted order; only the set of
keys and the per-key index lists matter to the stated properties.) -/
def distinctZips (df : List Record) : List String :=
  (df.filterMap (fun r => if zipNonEmpty r.zip_code then r.zip_code else none)).dedup

/-- Indices of the rows carrying exactly the zip code `z`. -/
def zipIndices (df : List Record) (z : String) : List Nat :=
  (List.range df.length).filter (fun i => (rowAt df i).zip_code = some z)

/-- First blocking pass of `block_by_zip_and_proximity`: one block
`zip_<code>` per non-empty zip code. -/
def zipBlocks (df : List Record) : List (String × List Nat) :=
  (distinctZips df).map (fun z => ("zip_" ++ z, zipIndices df z))

/-- Indices of `no_zip = df[df['zip_code'].isna() | (df['zip_code'] == '')]`. -/
def noZipIndices (df : List Record) : List Nat :=
  (List.range df.length).filter (fun i => ¬ zipNonEmpty (rowAt df i).zip_code)

/-- Neighbour gathering of the proximity pass: scan the whole `no_zip`
index list, skip processed rows and rows without coordinates, absorb rows
within `prox` meters of the seed, marking them processed. -/
def gatherNear (dist : ℚ → ℚ → ℚ → ℚ → ℚ) (prox : ℚ) (df : List Record)
    (la lo : ℚ) : List Nat → List Nat → List Nat × List Nat
  | [], processed => ([], processed)
  | o :: t, processed =>
    if o ∈ processed then gatherNear dist prox df la lo t processed
    else if hasCoords (rowAt df o) then
      if dist la lo ((rowAt df o).latitude.getD 0) ((rowAt df o).longitude.getD 0)
          ≤ prox then
        let r := gatherNear dist prox df la lo t (o :: processed)
        (o :: r.1, r.2)
      else gatherNear dist prox df la lo t processed
    else gatherNear dist prox df la lo t processed

/-- Second blocking pass: each unprocessed no-zip row with coordinates
seeds a `geo_cluster_<seed>` block; a row without coordinates becomes its
own `no_geo_<idx>` singleton block. -/
def geoLoop (dist : ℚ → ℚ → ℚ → ℚ → ℚ) (prox : ℚ) (df : List Record)
    (noZip : List Nat) : List Nat → List Nat → List (String × List Nat)
  | [], _ => []
  | i :: t, processed =>
    if i ∈ processed then geoLoop dist prox df noZip t processed
    else if hasCoords (rowAt df i) then
      let r := gatherNear dist prox df ((rowAt df i).latitude.getD 0)
        ((rowAt df i).longitude.getD 0) noZip (i :: processed)
      ("geo_cluster_" ++ toString i, i :: r.1) :: geoLoop dist prox df noZip t r.2
    else
      ("no_geo_" ++ toString i, [i]) :: geoLoop dist prox df noZip t (i :: processed)

/-- `GeographicBlocker.block_by_zip_and_proximity` as the list of
`(block_id, index list)` pairs (the Python dict; all keys are distinct). -/
def block_by_zip_and_proximity (dist : ℚ → ℚ → ℚ → ℚ → ℚ) (prox : ℚ)
    (df : List Record) : List (String × List Nat) :=
  zipBlocks df ++ geoLoop dist prox df (noZipIndices df) (noZipIndices df) []

/-- All indices covered by a list of blocks. -/
def blocksUnion (blocks : List (String × List Nat)) : List Nat :=
  (blocks.map Prod.snd).flatten

/-! ## AddressNormalizer -/

/-- Structured output of the external `usaddress.tag` parser (the only
labels the code reads). -/
structure ParsedAddr where
  addressNumber : Option String := none
  streetNamePreDirectional : Option String := none
  streetName : Option String := none
  streetNamePostType : Option String := none
  placeName : Option String := none
  stateName : Option String := none
  zipCode : Option String := none
deriving DecidableEq, Inhabited

/-- `NormalizedAddress` dataclass. -/
structure NormalizedAddress where
  street_number : Option String := none
  street_name : Option String := none
  street_type : Option String := none
  city : Option String := none
  state : Option String := none
  zip_code : Option String := none
  full_normalized : Option String := none
  parse_success : Bool := false
deriving DecidableEq, Inhabited

/-- `AddressNormalizer.STREET_TYPE_MAP`. -/
def STREET_TYPE_MAP : List (String × String) :=
  [("street", "st"), ("str", "st"), ("strt", "st"),
   ("avenue", "ave"), ("av", "ave"), ("avn", "ave"),
   ("boulevard", "blvd"), ("blv", "blvd"), ("boul", "blvd"),
   ("road", "rd"), ("roa", "rd"),
   ("drive", "dr"), ("drv", "dr"), ("driv", "dr"),
   ("lane", "ln"), ("lan", "ln"),
   ("court", "ct"), ("crt", "ct"),
   ("circle", "cir"), ("circ", "cir"),
   ("place", "pl"), ("plc", "pl"),
   ("highway", "hwy"), ("hwy", "hwy"), ("hiway", "hwy"),
   ("parkway", "pkwy"), ("pkw", "pkwy"), ("pky", "pkwy"),
   ("trail", "trl"), ("trls", "trl")]

/-- Does `hay` start with `needle`? -/
def startsWithChars : List Char → List Char → Bool
  | [], _ => true
  | _ :: _, [] => false
  | a :: as, b :: bs => a = b && startsWithChars as bs

/-- Python substring test `needle in hay`. -/
def substrChars (needle : List Char) : List Char → Bool
  | [] => decide (needle = [])
  | b :: t => startsWithChars needle (b :: t) || substrChars needle t

/-- `str.strip('.')`: remove leading and trailing dots. -/
def stripDots (l : List Char) : List Char :=
  ((l.dropWhile (· = '.')).reverse.dropWhile (· = '.')).reverse

/-- `AddressNormalizer.normalize_street_type`. -/
def normalize_street_type (street_type : String) : String :=
  if street_type = "" then ""
  else
    let key := String.mk (stripDots (lowerChars street_type.data))
    (STREET_TYPE_MAP.lookup key).getD key

/-- Worker for `collapseWS`: `inRun` records whether the previous kept
character closed a whitespace run. -/
def collapseWSAux (inRun : Bool) : List Char → List Char
  | [] => []
  | c :: cs =>
    if c.isWhitespace then
      if inRun then collapseWSAux true cs else ' ' :: collapseWSAux true cs
    else c :: collapseWSAux false cs

/-- `re.sub(r'\s+', ' ', s)`. -/
def collapseWS (l : List Char) : List Char := collapseWSAux false l

/-- Worker for `collapseCommas`. -/
def collapseCommasAux (inRun : Bool) : List Char → List Char
  | [] => []
  | c :: cs =>
    if c = ',' then
      if inRun then collapseCommasAux true cs else ',' :: collapseCommasAux true cs
    else c :: collapseCommasAux false cs

/-- `re.sub(r',+', ',', s)`. -/
def collapseCommas (l : List Char) : List Char := collapseCommasAux false l

/-- `AddressNormalizer.clean_address_string` on a non-null string: drop
characters outside `[\w\s,.-]`, collapse whitespace runs, collapse comma
runs, strip. -/
def clean_address_string (address : String) : String :=
  String.mk (trimChars (collapseCommas (collapseWS
    (address.data.filter (fun c =>
      isWordChar c || c.isWhitespace || c = ',' || c = '.' || c = '-')))))

/-- Emit a finished word run: unchanged unless it equals the searched
word, in which case the replacement is substituted. -/
def flushRun (w repl cur : List Char) : List Char :=
  if cur = [] then [] else if cur = w then repl else cur

/-- Worker for `replaceWord`: `cur` is the current (unreversed) word run. -/
def replaceWordAux (w repl : List Char) (cur : List Char) : List Char → List Char
  | [] => flushRun w repl cur
  | c :: cs =>
    if isWordChar c then replaceWordAux w repl (cur ++ [c]) cs
    else flushRun w repl cur ++ c :: replaceWordAux w repl [] cs

/-- `re.sub(r'\b<w>\b', repl, s)` for a word `w` made of word characters:
replace every maximal word-character run equal to `w`. -/
def replaceWord (w repl : List Char) (l : List Char) : List Char :=
  replaceWordAux w repl [] l

/-- The parser-failure fallback of `parse_address`: lowercase, then expand
`street`, `avenue`, `boulevard`, `road` (word-bounded). -/
def fallbackNormalize (cleaned : String) : String :=
  String.mk (replaceWord "road".data "rd".data
    (replaceWord "boulevard".data "blvd".data
      (replaceWord "avenue".data "ave".data
        (replaceWord "street".data "st".data (lowerChars cleaned.data)))))

/-- Python `s or None`: an empty string becomes `None`. -/
def orNone (s : String) : Option String := if s = "" then none else some s

/-- Successful-parse branch of `parse_address`. -/
def parsedToNormalized (parsed : ParsedAddr) : NormalizedAddress :=
  let street_number := parsed.addressNumber.getD ""
  let street_parts := [parsed.streetNamePreDirectional, parsed.streetName,
    parsed.streetNamePostType].filterMap id
  let street_name := String.mk (joinSpace (street_parts.map String.data))
  let street_type0 := parsed.streetNamePostType.getD ""
  let street_type :=
    if street_type0 ≠ "" then normalize_street_type street_type0 else street_type0
  let lowerName := String.mk (lowerChars street_name.data)
  let normalized_parts :=
    (if street_number ≠ "" then [street_number] else []) ++
    (if street_name ≠ "" then [lowerName] else []) ++
    (if street_type ≠ "" ∧ ¬ substrChars street_type.data lowerName.data
      then [street_type] else [])
  let full_normalized := String.mk (joinSpace (normalized_parts.map String.data))
  { street_number := orNone street_number
    street_name := orNone street_name
    street_type := orNone street_type
    city := orNone (parsed.placeName.getD "")
    state := orNone (parsed.stateName.getD "")
    zip_code := orNone (parsed.zipCode.getD "")
    full_normalized := orNone full_normalized
    parse_success := true }

/-- `AddressNormalizer.parse_address`; `tag` abstracts `usaddress.tag`,
with `none` standing for the raised-exception path.  Total by
construction: the Python contract "never raises" corresponds to this
function returning a `NormalizedAddress` for every input. -/
def parse_address (tag : String → Option ParsedAddr)
    (address_str : Option String) : NormalizedAddress :=
  match address_str with
  | none => {}
  | some s =>
    if s = "" then {}
    else
      let cleaned := clean_address_string s
      if cleaned = "" then {}
      else
        match tag cleaned with
        | some parsed => parsedToNormalized parsed
        | none => { full_normalized := some (fallbackNormalize cleaned)
                    parse_success := false }

/-! ## MasterRecordBuilder -/

/-- `MasterRecordBuilder.SOURCE_PRIORITY` with the `.get(x, 0)` default. -/
def sourcePriorityOf (s : String) : Nat :=
  if s = "google_places" then 3 else if s = "osm" then 2
  else if s = "yelp" then 1 else 0

/-- Insert a record into a priority-descending list, after all records of
priority ≥ its own (stable descending sort step).  `sort_values` ties are
implementation-defined in pandas; every property stated below is
independent of the tie order. -/
def insertByPriority (r : Record) : List Record → List Record
  | [] => [r]
  | b :: t =>
    if sourcePriorityOf b.source ≥ sourcePriorityOf r.source then
      b :: insertByPriority r t
    else r :: b :: t

/-- `group_df.sort_values('_source_priority', ascending=False)`. -/
def sortByPriority (l : List Record) : List Record :=
  l.foldl (fun acc r => insertByPriority r acc) []

/-- `MasterRecordBuilder.select_best_value`: first non-null, non-empty
candidate. -/
def select_best_value (values : List (Option String)) : Option String :=
  values.findSome? (fun v =>
    match v with
    | some s => if s = "" then none else some s
    | none => none)

/-- `pd.Series.unique`-style first-occurrence deduplication. -/
def uniqueAux {α : Type} [DecidableEq α] (seen : List α) : List α → List α
  | [] => []
  | x :: t => if x ∈ seen then uniqueAux seen t else x :: uniqueAux (x :: seen) t

/-- `pd.Series.unique` (first-occurrence order). -/
def uniqueKeep {α : Type} [DecidableEq α] (l : List α) : List α := uniqueAux [] l

/-- The consolidated master record (the dict built by
`consolidate_duplicate_group`; the freshly generated `master_id` UUID is a
side effect and is omitted). -/
structure Master where
  name : Option String
  park_type : Option String
  alternative_names : List String
  address : Option String
  city : Option String
  state : Option String
  zip_code : Option String
  county : Option String
  latitude : Option ℚ
  longitude : Option ℚ
  location_confidence : ℚ
  phone : Option String
  website : Option String
  email : Option String
  business_status : String
  avg_rating : Option ℚ
  total_reviews : Int
  source_ids : List (String × String)
  confidence_score : ℚ
  num_sources : Nat
  needs_manual_review : Bool
deriving DecidableEq

/-- `group_df`: the group's rows sorted by source priority, descending. -/
def groupSorted (df : List Record) (g : List Nat) : List Record :=
  sortByPriority (g.map (rowAt df))

/-- `valid_coords`: the group members carrying both coordinates. -/
def validCoords (df : List Record) (g : List Nat) : List Record :=
  (groupSorted df g).filter (fun r => r.latitude.isSome && r.longitude.isSome)

/-- `master['latitude']`: mean latitude of the coordinate-carrying
members, null when there are none. -/
def masterLatitude (df : List Record) (g : List Nat) : Option ℚ :=
  if validCoords df g = [] then none
  else some (((validCoords df g).map (fun r => r.latitude.getD 0)).sum /
    ((validCoords df g).length : ℚ))

/-- `master['longitude']`. -/
def masterLongitude (df : List Record) (g : List Nat) : Option ℚ :=
  if validCoords df g = [] then none
  else some (((validCoords df g).map (fun r => r.longitude.getD 0)).sum /
    ((validCoords df g).length : ℚ))

/-- `master['location_confidence']`. -/
def masterLocationConfidence (df : List Record) (g : List Nat) : ℚ :=
  if validCoords df g = [] then 0
  else min 1 (((validCoords df g).length : ℚ) / ((groupSorted df g).length : ℚ))

/-- `master['address']`. -/
def masterAddress (df : List Record) (g : List Nat) : Option String :=
  select_best_value ((groupSorted df g).map (·.address))

/-- `master['phone']`: Google Places values first, then all values. -/
def masterPhone (df : List Record) (g : List Nat) : Option String :=
  select_best_value
    (((groupSorted df g).filter (·.source = "google_places")).map (·.phone) ++
      (groupSorted df g).map (·.phone))

/-- `master['website']`: Google Places values first, then all values. -/
def masterWebsite (df : List Record) (g : List Nat) : Option String :=
  select_best_value
    (((groupSorted df g).filter (·.source = "google_places")).map (·.website) ++
      (groupSorted df g).map (·.website))

/-- `valid_ratings`: the group members with a non-null rating. -/
def validRatings (df : List Record) (g : List Nat) : List Record :=
  (groupSorted df g).filter (fun r => r.rating.isSome)

/-- `master['avg_rating']`: set only when some member has a rating. -/
def masterAvgRating (df : List Record) (g : List Nat) : Option ℚ :=
  if validRatings df g = [] then none
  else some (((validRatings df g).map (fun r => r.rating.getD 0)).sum /
    ((validRatings df g).length : ℚ))

/-- `master['total_reviews']`: also set only when some member has a
rating (the sum lives inside `if len(valid_ratings) > 0`). -/
def masterTotalReviews (df : List Record) (g : List Nat) : Int :=
  if validRatings df g = [] then 0
  else ((groupSorted df g).map (fun r => r.total_reviews.getD 0)).sum

/-- `num_sources = len(group_df['source'].unique())`. -/
def masterNumSources (df : List Record) (g : List Nat) : Nat :=
  (uniqueKeep ((groupSorted df g).map (·.source))).length

/-- `master['confidence_score']`: the Python truthiness test
`1.0 if master['latitude'] else 0.0` makes a latitude of exactly 0 count
as no coordinates. -/
def masterConfidence (df : List Record) (g : List Nat) : ℚ :=
  min 1 (((masterNumSources df g : ℚ) / 3) * (4/10) +
    (if optRatTruthy (masterLatitude df g) then 1 else 0) * (4/10) +
    (if optStrTruthy (masterPhone df g) || optStrTruthy (masterWebsite df g)
      then 1/2 else 0) * (2/10))

/-- `master['needs_manual_review']`; Python truthiness again: latitude 0
and empty-string address behave like nulls. -/
def masterNeedsReview (df : List Record) (g : List Nat) : Bool :=
  !optRatTruthy (masterLatitude df g) || !optStrTruthy (masterAddress df g) ||
    decide (masterConfidence df g < 1/2)

/-- `MasterRecordBuilder.consolidate_duplicate_group`. -/
def consolidate_duplicate_group (df : List Record) (group_indices : List Nat) :
    Master :=
  { name := select_best_value ((groupSorted df group_indices).map (·.name))
    park_type := select_best_value ((groupSorted df group_indices).map (·.park_type))
    alternative_names :=
      (uniqueKeep ((groupSorted df group_indices).map (·.name))).filterMap
        (fun v => match v with
          | some s => if s = "" then none else some s
          | none => none)
    address := masterAddress df group_indices
    city := select_best_value ((groupSorted df group_indices).map (·.city))
    state := select_best_value ((groupSorted df group_indices).map (·.state))
    zip_code := select_best_value ((groupSorted df group_indices).map (·.zip_code))
    county := select_best_value ((groupSorted df group_indices).map (·.county))
    latitude := masterLatitude df group_indices
    longitude := masterLongitude df group_indices
    location_confidence := masterLocationConfidence df group_indices
    phone := masterPhone df group_indices
    website := masterWebsite df group_indices
    email := select_best_value ((groupSorted df group_indices).map (·.email))
    business_status :=
      (select_best_value ((groupSorted df group_indices).map
        (·.business_status))).getD "OPERATIONAL"
    avg_rating := masterAvgRating df group_indices
    total_reviews := masterTotalReviews df group_indices
    source_ids := (groupSorted df group_indices).filterMap
      (fun r => r.external_id.map (fun e => (r.source, e)))
    confidence_score := masterConfidence df group_indices
    num_sources := masterNumSources df group_indices
    needs_manual_review := masterNeedsReview df group_indices }

/-! ## Spec-side reference definitions

These transcribe the spec's *words* (not the code) for the claims that
compare the two; each is evaluated over the raw group in input order, with
no dependence on the priority sort. -/

/-- Rows of a duplicate group, in group order. -/
def groupRows (df : List Record) (group_indices : List Nat) : List Record :=
  group_indices.map (rowAt df)

/-- Spec §4.4: "distinct_source_count". -/
def distinctSourceCount (df : List Record) (g : List Nat) : Nat :=
  (uniqueKeep ((groupRows df g).map (·.source))).length

/-- Spec §4.4 confidence formula, with "coordinates are present" read
literally as the consolidated latitude being non-null. -/
def specConfidence (df : List Record) (g : List Nat) : ℚ :=
  let m := consolidate_duplicate_group df g
  min 1 ((4/10) * ((distinctSourceCount df g : ℚ) / 3) +
    (4/10) * (if m.latitude.isSome then 1 else 0) +
    (2/10) * (if optStrTruthy m.phone || optStrTruthy m.website then 1/2 else 0))

/-- Spec §4.4/§8 review-flag condition, read literally: latitude null, or
address null/empty, or confidence below 1/2. -/
def specNeedsReview (df : List Record) (g : List Nat) : Prop :=
  let m := consolidate_duplicate_group df g
  m.latitude = none ∨ m.address = none ∨ m.address = some "" ∨
    m.confidence_score < 1/2

/-- Spec §4.4: sum of all members' review counts (`NaN` counts as 0, as
`pandas.Series.sum` skips nulls). -/
def specReviewSum (df : List Record) (g : List Nat) : Int :=
  ((groupRows df g).map (fun r => r.total_reviews.getD 0)).sum

/-- Spec §4.4: arithmetic mean of the non-null ratings, null if none. -/
def specAvgRating (df : List Record) (g : List Nat) : Option ℚ :=
  let rs := (groupRows df g).filterMap (·.rating)
  if rs = [] then none else some (rs.sum / (rs.length : ℚ))

/-! ## Concrete fixtures for witnesses and counterexamples -/

/-- A degenerate distance function (all points coincide); trivially
symmetric, it instantiates the abstract haversine parameter. -/
def distZero : ℚ → ℚ → ℚ → ℚ → ℚ := fun _ _ _ _ => 0

/-- A distance function putting every pair of points exactly at 500 m,
the default `distance_threshold` (haversine does attain 500 exactly). -/
def distFiveHundred : ℚ → ℚ → ℚ → ℚ → ℚ := fun _ _ _ _ => 500

/-- A `usaddress.tag` oracle that always raises. -/
def tagFail : String → Option ParsedAddr := fun _ => none

/-- 17 `a`s: normalizes to itself; `lcs` with `nameB85` is 17. -/
def nameA85 : String := "aaaaaaaaaaaaaaaaa"

/-- 17 `a`s followed by `bcdefg` (23 characters):
`token_sort_ratio nameA85 nameB85 = 200·17/40 = 85` exactly. -/
def nameB85 : String := "aaaaaaaaaaaaaaaaabcdefg"

/-- Record pair at the similarity boundary: names at similarity exactly
85, both with coordinates. -/
def recA85 : Record := { name := some nameA85, latitude := some 1, longitude := some 2 }

/-- See `recA85`. -/
def recB85 : Record := { name := some nameB85, latitude := some 3, longitude := some 4 }

/-- Three-source group whose mean latitude is exactly 0: Python `not 0.0`
is true, so the code treats the consolidated coordinates as missing. -/
def dfLatZero : List Record :=
  [{ source := "google_places", name := some "X", address := some "1 Main St",
     phone := some "555", latitude := some 10, longitude := some 0 },
   { source := "osm", name := some "X", latitude := some (-10), longitude := some 0 },
   { source := "yelp", name := some "X", latitude := some 0, longitude := some 0 }]

/-- A single record with reviews but no rating: the code then never sums
the review counts. -/
def dfNoRating : List Record := [{ source := "osm", total_reviews := some 7 }]

/-- A frame whose first record's name consists solely of stopwords. -/
def dfStopword : List Record :=
  [{ name := some "The RV Park" }, { name := some "Alpha" }]

/-! # Theorems -/

/-! ## Symmetry of the similarity scores -/

theorem lcsF_comm : ∀ (f : Nat) (a b : List Char), lcsF f a b = lcsF f b a := by
  intro f
  induction f with
  | zero => intro a b; rfl
  | succ f ih =>
    intro a b
    cases a with
    | nil => cases b <;> rfl
    | cons x xs =>
      cases b with
      | nil => rfl
      | cons y ys =>
        simp only [lcsF]
        by_cases h : x = y
        · subst h
          simp [ih]
        · have h2 : ¬ y = x := fun hh => h hh.symm
          rw [if_neg h, if_neg h2, ih (x :: xs) ys, ih xs (y :: ys), Nat.max_comm]

theorem lcsChars_comm (a b : List Char) : lcsChars a b = lcsChars b a := by
  unfold lcsChars
  rw [Nat.add_comm b.length a.length, lcsF_comm]

theorem fuzzRatioChars_comm (a b : List Char) :
    fuzzRatioChars a b = fuzzRatioChars b a := by
  unfold fuzzRatioChars
  rw [Nat.add_comm b.length a.length, lcsChars_comm b a,
    add_comm (b.length : ℚ) (a.length : ℚ)]

theorem fuzz_ratio_comm (s1 s2 : String) : fuzz_ratio s1 s2 = fuzz_ratio s2 s1 :=
  fuzzRatioChars_comm s1.data s2.data

theorem token_sort_ratio_comm (s1 s2 : String) :
    token_sort_ratio s1 s2 = token_sort_ratio s2 s1 :=
  fuzzRatioChars_comm _ _

theorem addrResult_comm (s : ℚ) (r1 r2 : Record) :
    addrResult s r1 r2 = addrResult s r2 r1 := by
  unfold addrResult
  rw [fuzz_ratio_comm (r2.address_normalized.getD "") (r1.address_normalized.getD "")]
  by_cases h1 : optStrTruthy r1.address_normalized = true <;>
    by_cases h2 : optStrTruthy r2.address_normalized = true <;>
      simp [h1, h2, and_comm]

theorem coordResult_comm (dist : ℚ → ℚ → ℚ → ℚ → ℚ) (dt s : ℚ) (r1 r2 : Record)
    (hsym : ∀ a b c d, dist a b c d = dist c d a b) :
    coordResult dist dt s r1 r2 = coordResult dist dt s r2 r1 := by
  unfold coordResult
  rw [hsym (r1.latitude.getD 0) (r1.longitude.getD 0) (r2.latitude.getD 0)
    (r2.longitude.getD 0)]

/-- C7: `are_duplicates` is symmetric in its two rows, for every
(symmetric) distance function and every threshold pair: both the boolean
verdict and the confidence agree under swapping. -/
theorem are_duplicates_symmetric (dist : ℚ → ℚ → ℚ → ℚ → ℚ)
    (name_threshold distance_threshold : ℚ) (a b : Record)
    (hsym : ∀ p q u v, dist p q u v = dist u v p q) :
    are_duplicates dist name_threshold distance_threshold a b =
      are_duplicates dist name_threshold distance_threshold b a := by
  unfold are_duplicates
  rw [token_sort_ratio_comm (normalize_name b.name) (normalize_name a.name),
    coordResult_comm dist distance_threshold _ a b hsym,
    addrResult_comm _ a b, Bool.and_comm (hasCoords b) (hasCoords a)]
  by_cases h1 : normalize_name a.name = "" <;>
    by_cases h2 : normalize_name b.name = "" <;>
      simp [h1, h2]

/-- Witness for C7 at a concrete pair of records and a concrete symmetric
distance function. -/
theorem are_duplicates_symmetric_witness :
    are_duplicates distZero 85 500 recA85 recB85 =
      are_duplicates distZero 85 500 recB85 recA85 :=
  are_duplicates_symmetric distZero 85 500 recA85 recB85 (fun _ _ _ _ => rfl)

/-! ## C2: greedy grouping partitions each block -/

theorem dupInner_fst_spec (dist : ℚ → ℚ → ℚ → ℚ → ℚ) (df : List Record)
    (row1 : Record) :
    ∀ (l proc : List Nat),
      (dupInner dist df row1 l proc).1.Nodup ∧
      ∀ x ∈ (dupInner dist df row1 l proc).1, x ∈ l ∧ x ∉ proc := by
  intro l
  induction l with
  | nil => intro proc; simp [dupInner]
  | cons o t ih =>
    intro proc
    by_cases ho : o ∈ proc
    · simp only [dupInner, if_pos ho]
      refine ⟨(ih proc).1, fun x hx => ?_⟩
      have := (ih proc).2 x hx
      exact ⟨List.mem_cons_of_mem o this.1, this.2⟩
    · by_cases hdup : (are_duplicates dist 85 500 row1 (rowAt df o)).1 = true
      · simp only [dupInner, if_neg ho, if_pos hdup]
        have hrec := ih (o :: proc)
        constructor
        · refine List.nodup_cons.mpr ⟨fun hmem => ?_, hrec.1⟩
          exact (hrec.2 o hmem).2 (List.mem_cons_self o proc)
        · intro x hx
          rcases List.mem_cons.mp hx with rfl | hx'
          · exact ⟨List.mem_cons_self x t, ho⟩
          · have := hrec.2 x hx'
            exact ⟨List.mem_cons_of_mem o this.1,
              fun hp => this.2 (List.mem_cons_of_mem o hp)⟩
      · simp only [dupInner, if_neg ho, if_neg hdup]
        refine ⟨(ih proc).1, fun x hx => ?_⟩
        have := (ih proc).2 x hx
        exact ⟨List.mem_cons_of_mem o this.1, this.2⟩

theorem dupInner_snd_mem (dist : ℚ → ℚ → ℚ → ℚ → ℚ) (df : List Record)
    (row1 : Record) :
    ∀ (l proc : List Nat) (x : Nat),
      x ∈ (dupInner dist df row1 l proc).2 ↔
        x ∈ (dupInner dist df row1 l proc).1 ∨ x ∈ proc := by
  intro l
  induction l with
  | nil => intro proc x; simp [dupInner]
  | cons o t ih =>
    intro proc x
    by_cases ho : o ∈ proc
    · simp only [dupInner, if_pos ho]
      exact ih proc x
    · by_cases hdup : (are_duplicates dist 85 500 row1 (rowAt df o)).1 = true
      · simp only [dupInner, if_neg ho, if_pos hdup]
        rw [ih (o :: proc) x]
        simp only [List.mem_cons]
        tauto
      · simp only [dupInner, if_neg ho, if_neg hdup]
        exact ih proc x

theorem dupOuter_ne_nil (dist : ℚ → ℚ → ℚ → ℚ → ℚ) (df : List Record)
    (block : List Nat) :
    ∀ (pend proc : List Nat), [] ∉ dupOuter dist df block pend proc := by
  intro pend
  induction pend with
  | nil => intro proc; simp [dupOuter]
  | cons i t ih =>
    intro proc
    by_cases hi : i ∈ proc
    · simp only [dupOuter, if_pos hi]
      exact ih proc
    · simp only [dupOuter, if_neg hi]
      intro hmem
      rcases List.mem_cons.mp hmem with h | h
      · exact List.cons_ne_nil i _ h.symm
      · exact ih _ h

theorem dupOuter_flatten_spec (dist : ℚ → ℚ → ℚ → ℚ → ℚ) (df : List Record)
    (block : List Nat) :
    ∀ (pend proc : List Nat),
      (dupOuter dist df block pend proc).flatten.Nodup ∧
      ∀ x ∈ (dupOuter dist df block pend proc).flatten,
        (x ∈ pend ∨ x ∈ block) ∧ x ∉ proc := by
  intro pend
  induction pend with
  | nil => intro proc; simp [dupOuter]
  | cons i t ih =>
    intro proc
    by_cases hi : i ∈ proc
    · simp only [dupOuter, if_pos hi]
      refine ⟨(ih proc).1, fun x hx => ?_⟩
      have := (ih proc).2 x hx
      exact ⟨this.1.imp_left (List.mem_cons_of_mem i), this.2⟩
    · simp only [dupOuter, if_neg hi, List.flatten_cons]
      have hfst := dupInner_fst_spec dist df (rowAt df i) block (i :: proc)
      have hsnd := dupInner_snd_mem dist df (rowAt df i) block (i :: proc)
      have hrec := ih (dupInner dist df (rowAt df i) block (i :: proc)).2
      constructor
      · refine List.Nodup.append ?_ hrec.1 ?_
        · refine List.nodup_cons.mpr ⟨fun hmem => ?_, hfst.1⟩
          exact (hfst.2 i hmem).2 (List.mem_cons_self i proc)
        · intro x hx hx'
          have hxin : x ∈ (dupInner dist df (rowAt df i) block (i :: proc)).2 := by
            rcases List.mem_cons.mp hx with rfl | hx2
            · exact (hsnd x).mpr (Or.inr (List.mem_cons_self x proc))
            · exact (hsnd x).mpr (Or.inl hx2)
          exact (hrec.2 x hx').2 hxin
      · intro x hx
        rcases List.mem_append.mp hx with hx1 | hx2
        · rcases List.mem_cons.mp hx1 with rfl | hx3
          · exact ⟨Or.inl (List.mem_cons_self x t), hi⟩
          · have := hfst.2 x hx3
            refine ⟨Or.inr this.1, fun hp => this.2 (List.mem_cons_of_mem i hp)⟩
        · have := hrec.2 x hx2
          refine ⟨this.1.imp_left (List.mem_cons_of_mem i), fun hp => this.2 ?_⟩
          exact (hsnd x).mpr (Or.inr (List.mem_cons_of_mem i hp))

theorem dupOuter_cover (dist : ℚ → ℚ → ℚ → ℚ → ℚ) (df : List Record)
    (block : List Nat) :
    ∀ (pend proc : List Nat) (x : Nat), x ∈ pend →
      x ∈ proc ∨ x ∈ (dupOuter dist df block pend proc).flatten := by
  intro pend
  induction pend with
  | nil => intro proc x hx; cases hx
  | cons i t ih =>
    intro proc x hx
    by_cases hi : i ∈ proc
    · simp only [dupOuter, if_pos hi]
      rcases List.mem_cons.mp hx with rfl | hx'
      · exact Or.inl hi
      · exact ih proc x hx'
    · simp only [dupOuter, if_neg hi, List.flatten_cons]
      rcases List.mem_cons.mp hx with rfl | hx'
      · exact Or.inr (List.mem_append_left _ (List.mem_cons_self x _))
      · rcases ih (dupInner dist df (rowAt df i) block (i :: proc)).2 x hx' with
          hp | hf
        · rcases (dupInner_snd_mem dist df (rowAt df i) block (i :: proc) x).mp hp
            with h1 | h2
          · exact Or.inr (List.mem_append_left _ (List.mem_cons_of_mem i h1))
          · rcases List.mem_cons.mp h2 with rfl | h3
            · exact Or.inr (List.mem_append_left _ (List.mem_cons_self x _))
            · exact Or.inl h3
        · exact Or.inr (List.mem_append_right _ hf)

/-- C2: for every block of distinct indices, the groups returned by
`find_duplicate_groups` partition the block — their concatenation has no
duplicates and covers exactly the block's index set, and no group is
empty. -/
theorem find_duplicate_groups_partition (dist : ℚ → ℚ → ℚ → ℚ → ℚ)
    (df : List Record) (block : List Nat) (hnd : block.Nodup) :
    (find_duplicate_groups dist df block).flatten.toFinset = block.toFinset ∧
    (find_duplicate_groups dist df block).flatten.Nodup ∧
    [] ∉ find_duplicate_groups dist df block := by
  have hsingle : ∀ l : List Nat, (l.map fun i => [i]).flatten = l := by
    intro l
    induction l with
    | nil => rfl
    | cons a t ih => simp [ih]
  unfold find_duplicate_groups
  by_cases hlen : block.length ≤ 1
  · rw [if_pos hlen, hsingle]
    refine ⟨rfl, hnd, ?_⟩
    intro hmem
    rcases List.mem_map.mp hmem with ⟨i, _, h⟩
    exact List.cons_ne_nil i [] h
  · rw [if_neg hlen]
    have hspec := dupOuter_flatten_spec dist df block block []
    have hcov := dupOuter_cover dist df block block []
    refine ⟨?_, hspec.1, dupOuter_ne_nil dist df block block []⟩
    ext x
    simp only [List.mem_toFinset]
    constructor
    · intro hx
      rcases (hspec.2 x hx).1 with h | h <;> exact h
    · intro hx
      rcases hcov x hx with h | h
      · cases h
      · exact h

/-- Witness for C2 at a concrete frame and block. -/
theorem find_duplicate_groups_partition_witness :
    (find_duplicate_groups distZero dfStopword [0, 1]).flatten.toFinset =
      ([0, 1] : List Nat).toFinset ∧
    (find_duplicate_groups distZero dfStopword [0, 1]).flatten.Nodup ∧
    [] ∉ find_duplicate_groups distZero dfStopword [0, 1] :=
  find_duplicate_groups_partition distZero dfStopword [0, 1] (by decide)

/-! ## C10: empty normalized names short-circuit detection -/

theorem dupInner_fst_nil (dist : ℚ → ℚ → ℚ → ℚ → ℚ) (df : List Record)
    (row1 : Record)
    (hfalse : ∀ o, (are_duplicates dist 85 500 row1 (rowAt df o)).1 = false) :
    ∀ (l proc : List Nat), (dupInner dist df row1 l proc).1 = [] := by
  intro l
  induction l with
  | nil => intro proc; rfl
  | cons o t ih =>
    intro proc
    by_cases ho : o ∈ proc
    · simp only [dupInner, if_pos ho]; exact ih proc
    · simp only [dupInner, if_neg ho, hfalse o, Bool.false_eq_true, if_false]
      exact ih proc

theorem dupInner_not_mem (dist : ℚ → ℚ → ℚ → ℚ → ℚ) (df : List Record)
    (row1 : Record) (i : Nat)
    (hfalse : (are_duplicates dist 85 500 row1 (rowAt df i)).1 = false) :
    ∀ (l proc : List Nat), i ∉ (dupInner dist df row1 l proc).1 := by
  intro l
  induction l with
  | nil => intro proc h; cases h
  | cons o t ih =>
    intro proc
    by_cases ho : o ∈ proc
    · simp only [dupInner, if_pos ho]; exact ih proc
    · by_cases hdup : (are_duplicates dist 85 500 row1 (rowAt df o)).1 = true
      · simp only [dupInner, if_neg ho, if_pos hdup]
        intro hmem
        rcases List.mem_cons.mp hmem with rfl | hmem'
        · rw [hfalse] at hdup; cases hdup
        · exact ih (o :: proc) hmem'
      · simp only [dupInner, if_neg ho, if_neg hdup]
        exact ih proc

theorem dupOuter_singleton_mem (dist : ℚ → ℚ → ℚ → ℚ → ℚ) (df : List Record)
    (block : List Nat) (i : Nat)
    (hseed : ∀ o, (are_duplicates dist 85 500 (rowAt df i) (rowAt df o)).1 = false)
    (habsorb : ∀ r1, (are_duplicates dist 85 500 r1 (rowAt df i)).1 = false) :
    ∀ (pend proc : List Nat), i ∈ pend → i ∉ proc →
      [i] ∈ dupOuter dist df block pend proc := by
  intro pend
  induction pend with
  | nil => intro proc h _; cases h
  | cons j t ih =>
    intro proc hpend hproc
    by_cases hj : j ∈ proc
    · simp only [dupOuter, if_pos hj]
      rcases List.mem_cons.mp hpend with rfl | hpend'
      · exact absurd hj hproc
      · exact ih proc hpend' hproc
    · simp only [dupOuter, if_neg hj]
      by_cases hij : i = j
      · subst hij
        have : (dupInner dist df (rowAt df i) block (i :: proc)).1 = [] :=
          dupInner_fst_nil dist df (rowAt df i) hseed block (i :: proc)
        rw [this]
        exact List.mem_cons_self _ _
      · have hpend' : i ∈ t := by
          rcases List.mem_cons.mp hpend with h | h
          · exact absurd h hij
          · exact h
        refine List.mem_cons_of_mem _ (ih _ hpend' ?_)
        intro hmem
        rcases (dupInner_snd_mem dist df (rowAt df j) block (j :: proc) i).mp hmem
          with h1 | h2
        · exact dupInner_not_mem dist df (rowAt df j) i (habsorb (rowAt df j))
            block (j :: proc) h1
        · rcases List.mem_cons.mp h2 with h4 | h3
          · exact hij h4
          · exact hproc h3

/-- C10: a record whose name normalizes to the empty string (null, empty,
or made only of the stopwords) is never reported a duplicate in either
argument position — `are_duplicates` returns `(false, 0)` for any
thresholds — and therefore always forms the singleton group `[i]` in
`find_duplicate_groups`. -/
theorem empty_normalized_name_singleton (dist : ℚ → ℚ → ℚ → ℚ → ℚ)
    (name_threshold distance_threshold : ℚ) (df : List Record)
    (block : List Nat) (i : Nat) (r2 : Record)
    (hname : normalize_name (rowAt df i).name = "") (hi : i ∈ block) :
    are_duplicates dist name_threshold distance_threshold (rowAt df i) r2 =
      (false, 0) ∧
    are_duplicates dist name_threshold distance_threshold r2 (rowAt df i) =
      (false, 0) ∧
    [i] ∈ find_duplicate_groups dist df block := by
  have hleft : ∀ (nt dt : ℚ) (r : Record),
      are_duplicates dist nt dt (rowAt df i) r = (false, 0) := by
    intro nt dt r
    unfold are_duplicates
    rw [if_pos (Or.inl hname)]
  have hright : ∀ (nt dt : ℚ) (r : Record),
      are_duplicates dist nt dt r (rowAt df i) = (false, 0) := by
    intro nt dt r
    unfold are_duplicates
    rw [if_pos (Or.inr hname)]
  refine ⟨hleft _ _ r2, hright _ _ r2, ?_⟩
  unfold find_duplicate_groups
  by_cases hlen : block.length ≤ 1
  · rw [if_pos hlen]
    exact List.mem_map.mpr ⟨i, hi, rfl⟩
  · rw [if_neg hlen]
    refine dupOuter_singleton_mem dist df block i ?_ ?_ block [] hi (by simp)
    · intro o; rw [hleft 85 500 (rowAt df o)]
    · intro r1; rw [hright 85 500 r1]

/-- Witness for C10: the record named "The RV Park" (all stopwords). -/
theorem empty_normalized_name_singleton_witness :
    are_duplicates distZero 85 500 (rowAt dfStopword 0) (rowAt dfStopword 1) =
      (false, 0) ∧
    are_duplicates distZero 85 500 (rowAt dfStopword 1) (rowAt dfStopword 0) =
      (false, 0) ∧
    [0] ∈ find_duplicate_groups distZero dfStopword [0, 1] :=
  empty_normalized_name_singleton distZero 85 500 dfStopword [0, 1] 0
    (rowAt dfStopword 1) (by decide) (by decide)

/-! ## C4: behaviour exactly at the default thresholds -/

theorem token_sort_ratio_names_85 : token_sort_ratio nameA85 nameB85 = 85 := by
  unfold token_sort_ratio
  have ha : joinSpace (sortTokens (wsSplit nameA85.data)) = nameA85.data := by decide
  have hb : joinSpace (sortTokens (wsSplit nameB85.data)) = nameB85.data := by decide
  rw [ha, hb]
  unfold fuzzRatioChars
  have hla : nameA85.data.length = 17 := by decide
  have hlb : nameB85.data.length = 23 := by decide
  have hlcs : lcsChars nameA85.data nameB85.data = 17 := by decide
  rw [hla, hlb, hlcs]
  norm_num

theorem boundary_pair_eval (dist : ℚ → ℚ → ℚ → ℚ → ℚ) (r1 r2 : Record)
    (h1 : normalize_name r1.name ≠ "") (h2 : normalize_name r2.name ≠ "")
    (hsim : token_sort_ratio (normalize_name r1.name) (normalize_name r2.name) = 85)
    (hc1 : hasCoords r1 = true) (hc2 : hasCoords r2 = true)
    (hd : dist (r1.latitude.getD 0) (r1.longitude.getD 0)
      (r2.latitude.getD 0) (r2.longitude.getD 0) = 500) :
    are_duplicates dist 85 500 r1 r2 = (true, 119/200) := by
  unfold are_duplicates
  rw [if_neg (by simp [h1, h2]), hsim, if_neg (by norm_num), hc1, hc2]
  simp only [Bool.and_self, if_true]
  unfold coordResult
  rw [hd]
  rw [if_neg (by norm_num)]
  norm_num

/-- C4 (amended): with the default thresholds, a name similarity of
exactly 85 passes the `>=` name test, and a distance of exactly 500 m
also passes — the too-far test is strict `>` — so such a pair *is*
classified a duplicate, with confidence `(85·0.7 + 0·0.3)/100 = 0.595`. -/
theorem threshold_boundaries_pass (dist : ℚ → ℚ → ℚ → ℚ → ℚ) (r1 r2 : Record)
    (h1 : normalize_name r1.name ≠ "") (h2 : normalize_name r2.name ≠ "")
    (hsim : token_sort_ratio (normalize_name r1.name) (normalize_name r2.name) = 85)
    (hc1 : hasCoords r1 = true) (hc2 : hasCoords r2 = true)
    (hd : dist (r1.latitude.getD 0) (r1.longitude.getD 0)
      (r2.latitude.getD 0) (r2.longitude.getD 0) = 500) :
    are_duplicates dist 85 500 r1 r2 = (true, 119/200) :=
  boundary_pair_eval dist r1 r2 h1 h2 hsim hc1 hc2 hd

/-- Witness for C4: concrete records whose normalized names have
similarity exactly 85, at a distance of exactly 500 m. -/
theorem threshold_boundaries_pass_witness :
    are_duplicates distFiveHundred 85 500 recA85 recB85 = (true, 119/200) :=
  threshold_boundaries_pass distFiveHundred recA85 recB85 (by decide) (by decide)
    (by
      have ha : normalize_name recA85.name = nameA85 := by decide
      have hb : normalize_name recB85.name = nameB85 := by decide
      rw [ha, hb, token_sort_ratio_names_85])
    (by decide) (by decide) rfl

/-- Counterexample to C4 as stated: the claim says a pair at exactly
500 m is classified as *not* duplicates, but the code's too-far test is
strict (`distance > distance_threshold`), so this concrete pair at
exactly 500 m with passing names is classified a duplicate. -/
theorem threshold_boundary_500m_counterexample :
    are_duplicates distFiveHundred 85 500 recA85 recB85 = (true, 119/200) ∧
    (true, (119 : ℚ)/200) ≠ ((false, 0) : Bool × ℚ) := by
  constructor
  · refine boundary_pair_eval distFiveHundred recA85 recB85 (by decide) (by decide)
      ?_ (by decide) (by decide) rfl
    have ha : normalize_name recA85.name = nameA85 := by decide
    have hb : normalize_name recB85.name = nameB85 := by decide
    rw [ha, hb, token_sort_ratio_names_85]
  · simp

/-! ## C8: which abbreviations the parser-failure fallback expands -/

/-- Counterexample to C8 as stated: the claim says the fallback expands
`drive→dr` (among twelve entries), but on parser failure the cleaned
address "100 Oak Drive" keeps the word `drive`: the fallback only ever
rewrites `street`, `avenue`, `boulevard` and `road`. -/
theorem fallback_drive_counterexample :
    (parse_address tagFail (some "100 Oak Drive")).full_normalized =
      some "100 oak drive" ∧
    ("100 oak drive" : String) ≠ "100 oak dr" := by
  constructor
  · decide
  · decide

/-- C8 (amended): the parser-failure fallback lowercases the cleaned
address and expands exactly the four word-bounded abbreviations
`street→st`, `avenue→ave`, `boulevard→blvd`, `road→rd`, leaving the other
eight street types of `STREET_TYPE_MAP` (drive, lane, court, circle,
place, highway, parkway, trail) unchanged; the full twelve-entry
dictionary is applied only by `normalize_street_type` on the
successful-parse path. -/
theorem fallback_expands_four_abbreviations :
    (parse_address tagFail (some
        "1 Street Avenue Boulevard Road Drive Lane Court Circle Place Highway Parkway Trail")).full_normalized
      = some "1 st ave blvd rd drive lane court circle place highway parkway trail" ∧
    (parse_address tagFail (some
        "1 Street Avenue Boulevard Road Drive Lane Court Circle Place Highway Parkway Trail")).parse_success
      = false ∧
    normalize_street_type "street" = "st" ∧
    normalize_street_type "avenue" = "ave" ∧
    normalize_street_type "boulevard" = "blvd" ∧
    normalize_street_type "road" = "rd" ∧
    normalize_street_type "drive" = "dr" ∧
    normalize_street_type "lane" = "ln" ∧
    normalize_street_type "court" = "ct" ∧
    normalize_street_type "circle" = "cir" ∧
    normalize_street_type "place" = "pl" ∧
    normalize_street_type "highway" = "hwy" ∧
    normalize_street_type "parkway" = "pkwy" ∧
    normalize_street_type "trail" = "trl" := by
  refine ⟨by decide, by decide, ?_, ?_, ?_, ?_, ?_, ?_, ?_, ?_, ?_, ?_, ?_, ?_⟩ <;>
    decide

/-! ## C9: totality and the non-empty fallback guarantee -/

theorem stringMk_ne_empty (l : List Char) (h : l ≠ []) : String.mk l ≠ "" := by
  intro hc
  apply h
  have := congrArg String.data hc
  simpa using this

theorem replaceWordAux_ne_nil (w repl : List Char) (hrepl : repl ≠ []) :
    ∀ (l cur : List Char), (cur ≠ [] ∨ l ≠ []) →
      replaceWordAux w repl cur l ≠ [] := by
  intro l
  induction l with
  | nil =>
    intro cur h
    have hcur : cur ≠ [] := by
      rcases h with h | h
      · exact h
      · exact absurd rfl h
    simp only [replaceWordAux, flushRun]
    rw [if_neg hcur]
    by_cases hw : cur = w
    · rw [if_pos hw]; exact hrepl
    · rw [if_neg hw]; exact hcur
  | cons c cs ih =>
    intro cur _
    by_cases hc : isWordChar c = true
    · simp only [replaceWordAux, if_pos hc]
      exact ih (cur ++ [c]) (Or.inl (by simp))
    · simp only [replaceWordAux, if_neg hc]
      intro hnil
      rcases List.append_eq_nil.mp hnil with ⟨_, h2⟩
      exact List.cons_ne_nil c _ h2

theorem replaceWord_ne_nil (w repl l : List Char) (hrepl : repl ≠ [])
    (hl : l ≠ []) : replaceWord w repl l ≠ [] :=
  replaceWordAux_ne_nil w repl hrepl l [] (Or.inr hl)

theorem fallbackNormalize_ne_empty (cleaned : String)
    (h : cleaned ≠ "") : fallbackNormalize cleaned ≠ "" := by
  have hdata : cleaned.data ≠ [] := by
    intro hc
    apply h
    have he : cleaned = String.mk cleaned.data := rfl
    rw [he, hc]
  have hlower : lowerChars cleaned.data ≠ [] := by
    simpa [lowerChars] using hdata
  apply stringMk_ne_empty
  apply replaceWord_ne_nil _ _ _ (by decide)
  apply replaceWord_ne_nil _ _ _ (by decide)
  apply replaceWord_ne_nil _ _ _ (by decide)
  exact replaceWord_ne_nil _ _ _ (by decide) hlower

/-- C9 (amended): `parse_address` is total by construction — every input,
including null and empty, yields a `NormalizedAddress` — and for every
input whose *cleaned* address string is non-empty, a parser failure takes
the fallback path: `parse_success` is `false` and `full_normalized` is
the non-empty fallback string (inputs whose cleaned form is empty return
the all-null record instead). -/
theorem parse_address_failure_nonempty (tag : String → Option ParsedAddr)
    (s : String) (hclean : clean_address_string s ≠ "")
    (htag : tag (clean_address_string s) = none) :
    (parse_address tag (some s)).parse_success = false ∧
    (parse_address tag (some s)).full_normalized =
      some (fallbackNormalize (clean_address_string s)) ∧
    fallbackNormalize (clean_address_string s) ≠ "" := by
  have hs : s ≠ "" := by
    intro hc
    apply hclean
    rw [hc]
    rfl
  simp only [parse_address, if_neg hs, if_neg hclean, htag]
  exact ⟨trivial, trivial, fallbackNormalize_ne_empty _ hclean⟩

/-- Witness for C9 at a concrete failing parse. -/
theorem parse_address_failure_nonempty_witness :
    (parse_address tagFail (some "123 Oak Street")).parse_success = false ∧
    (parse_address tagFail (some "123 Oak Street")).full_normalized =
      some (fallbackNormalize (clean_address_string "123 Oak Street")) ∧
    fallbackNormalize (clean_address_string "123 Oak Street") ≠ "" :=
  parse_address_failure_nonempty tagFail "123 Oak Street" (by decide) rfl

/-- Counterexample to C9 as stated: `"@@@"` is a non-empty address text,
its parse does not succeed, yet `full_normalized` is null — the cleaning
pass strips every character, and an empty cleaned string returns the
all-null `NormalizedAddress` rather than a non-empty fallback. -/
theorem parse_address_special_chars_counterexample :
    ("@@@" : String) ≠ "" ∧
    (parse_address tagFail (some "@@@")).parse_success = false ∧
    (parse_address tagFail (some "@@@")).full_normalized = none := by
  refine ⟨by decide, by decide, by decide⟩

/-! ## Consolidation: sorting is a permutation, spec-side bridges -/

theorem consolidate_latitude (df : List Record) (g : List Nat) :
    (consolidate_duplicate_group df g).latitude = masterLatitude df g := rfl

theorem consolidate_address (df : List Record) (g : List Nat) :
    (consolidate_duplicate_group df g).address = masterAddress df g := rfl

theorem consolidate_phone (df : List Record) (g : List Nat) :
    (consolidate_duplicate_group df g).phone = masterPhone df g := rfl

theorem consolidate_website (df : List Record) (g : List Nat) :
    (consolidate_duplicate_group df g).website = masterWebsite df g := rfl

theorem consolidate_avg_rating (df : List Record) (g : List Nat) :
    (consolidate_duplicate_group df g).avg_rating = masterAvgRating df g := rfl

theorem consolidate_total_reviews (df : List Record) (g : List Nat) :
    (consolidate_duplicate_group df g).total_reviews = masterTotalReviews df g := rfl

theorem consolidate_confidence (df : List Record) (g : List Nat) :
    (consolidate_duplicate_group df g).confidence_score = masterConfidence df g := rfl

theorem consolidate_location_confidence (df : List Record) (g : List Nat) :
    (consolidate_duplicate_group df g).location_confidence =
      masterLocationConfidence df g := rfl

theorem consolidate_needs_review (df : List Record) (g : List Nat) :
    (consolidate_duplicate_group df g).needs_manual_review =
      masterNeedsReview df g := rfl

theorem insertByPriority_perm (r : Record) :
    ∀ l : List Record, (insertByPriority r l).Perm (r :: l) := by
  intro l
  induction l with
  | nil => exact List.Perm.refl _
  | cons b t ih =>
    by_cases h : sourcePriorityOf b.source ≥ sourcePriorityOf r.source
    · simp only [insertByPriority, if_pos h]
      exact (ih.cons b).trans (List.Perm.swap r b t)
    · simp only [insertByPriority, if_neg h]
      exact List.Perm.refl _

theorem foldl_insert_perm :
    ∀ (l acc : List Record),
      (l.foldl (fun acc r => insertByPriority r acc) acc).Perm (acc ++ l) := by
  intro l
  induction l with
  | nil => intro acc; simp
  | cons r t ih =>
    intro acc
    simp only [List.foldl_cons]
    refine (ih (insertByPriority r acc)).trans ?_
    refine (((insertByPriority_perm r acc).append_right t).trans ?_)
    exact List.perm_middle.symm

theorem sortByPriority_perm (l : List Record) : (sortByPriority l).Perm l := by
  simpa using foldl_insert_perm l []

theorem groupSorted_perm (df : List Record) (g : List Nat) :
    (groupSorted df g).Perm (groupRows df g) :=
  sortByPriority_perm (g.map (rowAt df))

theorem uniqueAux_spec {α : Type} [DecidableEq α] :
    ∀ (l seen : List α),
      (uniqueAux seen l).Nodup ∧ ∀ x ∈ uniqueAux seen l, x ∉ seen := by
  intro l
  induction l with
  | nil => intro seen; simp [uniqueAux]
  | cons a t ih =>
    intro seen
    by_cases h : a ∈ seen
    · simp only [uniqueAux, if_pos h]
      exact ih seen
    · simp only [uniqueAux, if_neg h]
      refine ⟨List.nodup_cons.mpr ⟨fun hmem => ?_, (ih (a :: seen)).1⟩, ?_⟩
      · exact (ih (a :: seen)).2 a hmem (List.mem_cons_self a seen)
      · intro x hx
        rcases List.mem_cons.mp hx with rfl | hx'
        · exact h
        · intro hxs
          exact (ih (a :: seen)).2 x hx' (List.mem_cons_of_mem a hxs)

theorem uniqueAux_toFinset {α : Type} [DecidableEq α] :
    ∀ (l seen : List α),
      (uniqueAux seen l).toFinset = l.toFinset \ seen.toFinset := by
  intro l
  induction l with
  | nil => intro seen; simp [uniqueAux]
  | cons a t ih =>
    intro seen
    by_cases h : a ∈ seen
    · simp only [uniqueAux, if_pos h]
      rw [ih seen]
      ext x
      simp only [Finset.mem_sdiff, List.mem_toFinset, List.mem_cons]
      constructor
      · rintro ⟨hx, hs⟩; exact ⟨Or.inr hx, hs⟩
      · rintro ⟨hx | hx, hs⟩
        · exact absurd (hx ▸ h) hs
        · exact ⟨hx, hs⟩
    · simp only [uniqueAux, if_neg h]
      rw [List.toFinset_cons, ih (a :: seen)]
      ext x
      simp only [Finset.mem_insert, Finset.mem_sdiff, List.mem_toFinset,
        List.mem_cons, List.toFinset_cons]
      constructor
      · rintro (rfl | ⟨hx, hs⟩)
        · exact ⟨Or.inl rfl, h⟩
        · refine ⟨Or.inr hx, fun hseen => hs (Or.inr hseen)⟩
      · rintro ⟨rfl | hx, hs⟩
        · exact Or.inl rfl
        · by_cases hxa : x = a
          · exact Or.inl hxa
          · exact Or.inr ⟨hx, fun hseen => hs (by
              rcases hseen with h1 | h2
              · exact absurd h1 hxa
              · exact h2)⟩

theorem uniqueKeep_length_card {α : Type} [DecidableEq α] (l : List α) :
    (uniqueKeep l).length = l.toFinset.card := by
  have h1 : (uniqueKeep l).toFinset = l.toFinset := by
    unfold uniqueKeep
    rw [uniqueAux_toFinset l []]
    simp
  have h2 : (uniqueKeep l).toFinset.card = (uniqueKeep l).length :=
    List.toFinset_card_of_nodup (uniqueAux_spec l []).1
  rw [← h2, h1]

theorem uniqueKeep_length_perm {α : Type} [DecidableEq α] {l1 l2 : List α}
    (h : l1.Perm l2) : (uniqueKeep l1).length = (uniqueKeep l2).length := by
  rw [uniqueKeep_length_card, uniqueKeep_length_card,
    List.toFinset_eq_of_perm l1 l2 h]

theorem filterMap_rating_eq (l : List Record) :
    l.filterMap (·.rating) =
      (l.filter (fun r => r.rating.isSome)).map (fun r => r.rating.getD 0) := by
  induction l with
  | nil => rfl
  | cons r t ih =>
    cases h : r.rating with
    | none => simp [List.filterMap_cons, List.filter_cons, h, ih]
    | some v => simp [List.filterMap_cons, List.filter_cons, h, ih]

/-! ## C6: rating mean and review-count sum -/

/-- C6 (amended): `avg_rating` is the arithmetic mean of the members'
non-null ratings (null when none has a rating), but `total_reviews`
equals the sum of the members' review counts only when at least one
member has a non-null *rating*; otherwise it stays `0` even when members
carry review counts. -/
theorem rating_and_reviews_consolidation (df : List Record) (g : List Nat) :
    (consolidate_duplicate_group df g).avg_rating = specAvgRating df g ∧
    (consolidate_duplicate_group df g).total_reviews =
      (if (groupRows df g).any (fun r => r.rating.isSome) then specReviewSum df g
        else 0) := by
  have hperm := groupSorted_perm df g
  have hpf : (validRatings df g).Perm
      ((groupRows df g).filter (fun r => r.rating.isSome)) :=
    hperm.filter _
  have hempty : validRatings df g = [] ↔
      (groupRows df g).filter (fun r => r.rating.isSome) = [] := by
    constructor
    · intro h; exact (h ▸ hpf).symm.eq_nil
    · intro h; exact (h ▸ hpf).eq_nil
  have hany : ((groupRows df g).any (fun r => r.rating.isSome) = true) ↔
      ¬ ((groupRows df g).filter (fun r => r.rating.isSome) = []) := by
    rw [List.any_eq_true]
    constructor
    · rintro ⟨a, ha, hpa⟩ hnil
      have hmem : a ∈ (groupRows df g).filter (fun r => r.rating.isSome) :=
        List.mem_filter.mpr ⟨ha, hpa⟩
      rw [hnil] at hmem
      cases hmem
    · intro h
      rcases List.exists_mem_of_ne_nil _ h with ⟨a, ha⟩
      rcases List.mem_filter.mp ha with ⟨h1, h2⟩
      exact ⟨a, h1, h2⟩
  constructor
  · rw [consolidate_avg_rating]
    unfold masterAvgRating specAvgRating
    rw [filterMap_rating_eq]
    by_cases h : (groupRows df g).filter (fun r => r.rating.isSome) = []
    · rw [if_pos (hempty.mpr h), if_pos (by simp [h])]
    · rw [if_neg (fun hc => h (hempty.mp hc)), if_neg (by simp [h])]
      have hsum : ((validRatings df g).map (fun r => r.rating.getD 0)).sum =
          (((groupRows df g).filter (fun r => r.rating.isSome)).map
            (fun r => r.rating.getD 0)).sum :=
        (hpf.map _).sum_eq
      have hlen : (validRatings df g).length =
          ((groupRows df g).filter (fun r => r.rating.isSome)).length :=
        hpf.length_eq
      rw [hsum, hlen, List.length_map]
  · rw [consolidate_total_reviews]
    unfold masterTotalReviews specReviewSum
    by_cases h : (groupRows df g).filter (fun r => r.rating.isSome) = []
    · rw [if_pos (hempty.mpr h), if_neg (by
        intro hc
        exact (hany.mp hc) h)]
    · rw [if_neg (fun hc => h (hempty.mp hc)), if_pos (hany.mpr h)]
      exact (hperm.map _).sum_eq

/-- Counterexample to C6 as stated: a group with review counts but no
rating keeps `total_reviews = 0` instead of the claimed sum. -/
theorem total_reviews_counterexample :
    (consolidate_duplicate_group dfNoRating [0]).total_reviews = 0 ∧
    specReviewSum dfNoRating [0] = 7 ∧
    (consolidate_duplicate_group dfNoRating [0]).total_reviews ≠
      specReviewSum dfNoRating [0] := by
  refine ⟨by decide, by decide, by decide⟩

/-! ## C5: confidence formula and bounds -/

theorem optRatTruthy_false_iff (o : Option ℚ) :
    optRatTruthy o = false ↔ o = none ∨ o = some 0 := by
  cases o with
  | none => simp [optRatTruthy]
  | some x => simp [optRatTruthy]

theorem optStrTruthy_false_iff (o : Option String) :
    optStrTruthy o = false ↔ o = none ∨ o = some "" := by
  cases o with
  | none => simp [optStrTruthy]
  | some s => simp [optStrTruthy]

/-- C5 (amended): the consolidated confidence is
`min 1 (0.4·(distinct_source_count/3) + 0.4·coords + 0.2·contact)`, where
the coordinate term is 1 exactly when the consolidated latitude is
*truthy* (non-null and non-zero — Python `if master['latitude']`), not
merely present; and both `confidence_score` and `location_confidence`
always lie in `[0, 1]`. -/
theorem confidence_formula_and_bounds (df : List Record) (g : List Nat) :
    (consolidate_duplicate_group df g).confidence_score =
      min 1 ((4/10) * ((distinctSourceCount df g : ℚ) / 3) +
        (4/10) * (if optRatTruthy (consolidate_duplicate_group df g).latitude
          then 1 else 0) +
        (2/10) * (if optStrTruthy (consolidate_duplicate_group df g).phone ||
            optStrTruthy (consolidate_duplicate_group df g).website
          then 1/2 else 0)) ∧
    0 ≤ (consolidate_duplicate_group df g).confidence_score ∧
    (consolidate_duplicate_group df g).confidence_score ≤ 1 ∧
    0 ≤ (consolidate_duplicate_group df g).location_confidence ∧
    (consolidate_duplicate_group df g).location_confidence ≤ 1 := by
  have hnum : masterNumSources df g = distinctSourceCount df g :=
    uniqueKeep_length_perm ((groupSorted_perm df g).map (·.source))
  refine ⟨?_, ?_, ?_, ?_, ?_⟩
  · rw [consolidate_confidence, consolidate_latitude, consolidate_phone,
      consolidate_website]
    unfold masterConfidence
    rw [hnum]
    congr 1
    ring
  · rw [consolidate_confidence]
    unfold masterConfidence
    refine le_min (by norm_num) ?_
    have h1 : (0:ℚ) ≤ ((masterNumSources df g : ℚ) / 3) * (4/10) := by positivity
    have h2 : (0:ℚ) ≤
        (if optRatTruthy (masterLatitude df g) then (1:ℚ) else 0) * (4/10) := by
      split_ifs <;> norm_num
    have h3 : (0:ℚ) ≤
        (if optStrTruthy (masterPhone df g) || optStrTruthy (masterWebsite df g)
          then (1:ℚ)/2 else 0) * (2/10) := by
      split_ifs <;> norm_num
    linarith
  · rw [consolidate_confidence]
    exact min_le_left _ _
  · rw [consolidate_location_confidence]
    unfold masterLocationConfidence
    split_ifs with h
    · norm_num
    · refine le_min (by norm_num) ?_
      positivity
  · rw [consolidate_location_confidence]
    unfold masterLocationConfidence
    split_ifs with h
    · norm_num
    · exact min_le_left _ _

theorem dfLatZero_sorted : groupSorted dfLatZero [0, 1, 2] = dfLatZero := by
  decide

theorem dfLatZero_validCoords : validCoords dfLatZero [0, 1, 2] = dfLatZero := by
  decide

theorem dfLatZero_latitude : masterLatitude dfLatZero [0, 1, 2] = some 0 := by
  rw [masterLatitude, dfLatZero_validCoords,
    if_neg (by decide : ¬ (dfLatZero = []))]
  norm_num [dfLatZero]

theorem dfLatZero_address :
    masterAddress dfLatZero [0, 1, 2] = some "1 Main St" := by decide

theorem dfLatZero_phone : masterPhone dfLatZero [0, 1, 2] = some "555" := by decide

theorem dfLatZero_website : masterWebsite dfLatZero [0, 1, 2] = none := by decide

theorem dfLatZero_num_sources : masterNumSources dfLatZero [0, 1, 2] = 3 := by
  decide

theorem dfLatZero_distinct_sources :
    distinctSourceCount dfLatZero [0, 1, 2] = 3 := by decide

theorem dfLatZero_confidence : masterConfidence dfLatZero [0, 1, 2] = 1/2 := by
  have hne : ("555" : String) ≠ "" := by decide
  rw [masterConfidence, dfLatZero_num_sources, dfLatZero_latitude,
    dfLatZero_phone, dfLatZero_website]
  rw [min_eq_right (by norm_num [optRatTruthy, optStrTruthy, hne])]
  norm_num [optRatTruthy, optStrTruthy, hne]

/-- Counterexample to C5 as stated: in this three-source group the mean
latitude is exactly 0, so coordinates *are* present (`latitude = some 0`)
and the spec formula yields 9/10, yet the code's truthiness test zeroes
the coordinate term and produces 1/2. -/
theorem confidence_lat_zero_counterexample :
    (consolidate_duplicate_group dfLatZero [0, 1, 2]).latitude = some 0 ∧
    specConfidence dfLatZero [0, 1, 2] = 9/10 ∧
    (consolidate_duplicate_group dfLatZero [0, 1, 2]).confidence_score = 1/2 ∧
    (consolidate_duplicate_group dfLatZero [0, 1, 2]).confidence_score ≠
      specConfidence dfLatZero [0, 1, 2] := by
  have hlat : (consolidate_duplicate_group dfLatZero [0, 1, 2]).latitude =
      some 0 := by
    rw [consolidate_latitude, dfLatZero_latitude]
  have hconf : (consolidate_duplicate_group dfLatZero [0, 1, 2]).confidence_score
      = 1/2 := by
    rw [consolidate_confidence, dfLatZero_confidence]
  have hspec : specConfidence dfLatZero [0, 1, 2] = 9/10 := by
    have hne : ("555" : String) ≠ "" := by decide
    simp only [specConfidence]
    rw [consolidate_latitude, consolidate_phone, consolidate_website,
      dfLatZero_latitude, dfLatZero_phone, dfLatZero_website,
      dfLatZero_distinct_sources]
    rw [min_eq_right (by norm_num [optStrTruthy, hne])]
    norm_num [optStrTruthy, hne]
  refine ⟨hlat, hspec, hconf, ?_⟩
  rw [hconf, hspec]
  norm_num

/-! ## C3: the manual-review flag -/

/-- C3 (amended): `needs_manual_review` is true iff the consolidated
latitude is null *or zero*, or the consolidated address is null or empty,
or `confidence_score < 0.5` — Python's `not master['latitude']` treats a
latitude of exactly 0 like a missing one. -/
theorem needs_review_characterization (df : List Record) (g : List Nat) :
    (consolidate_duplicate_group df g).needs_manual_review = true ↔
      ((consolidate_duplicate_group df g).latitude = none ∨
       (consolidate_duplicate_group df g).latitude = some 0 ∨
       (consolidate_duplicate_group df g).address = none ∨
       (consolidate_duplicate_group df g).address = some "" ∨
       (consolidate_duplicate_group df g).confidence_score < 1/2) := by
  rw [consolidate_needs_review, consolidate_latitude, consolidate_address,
    consolidate_confidence]
  unfold masterNeedsReview
  simp only [Bool.or_eq_true, Bool.not_eq_true', decide_eq_true_eq]
  rw [optRatTruthy_false_iff, optStrTruthy_false_iff]
  tauto

/-- Counterexample to C3 as stated: a group whose consolidated latitude
is exactly 0 (with address present and confidence exactly 1/2) is flagged
for review by the code even though none of the claim's three conditions —
null latitude, null/empty address, confidence below 0.5 — holds. -/
theorem needs_review_lat_zero_counterexample :
    (consolidate_duplicate_group dfLatZero [0, 1, 2]).needs_manual_review = true ∧
    ¬ specNeedsReview dfLatZero [0, 1, 2] := by
  constructor
  · rw [consolidate_needs_review]
    unfold masterNeedsReview
    rw [dfLatZero_latitude]
    simp [optRatTruthy]
  · have hne2 : ("1 Main St" : String) ≠ "" := by decide
    simp only [specNeedsReview]
    rw [consolidate_latitude, consolidate_address, consolidate_confidence,
      dfLatZero_latitude, dfLatZero_address, dfLatZero_confidence]
    norm_num [hne2]
    exact ⟨fun h => Option.noConfusion h, fun h => Option.noConfusion h⟩

/-! ## C1: blocking covers every index exactly once -/

theorem gatherNear_fst_spec (dist : ℚ → ℚ → ℚ → ℚ → ℚ) (prox : ℚ)
    (df : List Record) (la lo : ℚ) :
    ∀ (l proc : List Nat),
      (gatherNear dist prox df la lo l proc).1.Nodup ∧
      ∀ x ∈ (gatherNear dist prox df la lo l proc).1,
        x ∈ l ∧ x ∉ proc ∧ hasCoords (rowAt df x) = true := by
  intro l
  induction l with
  | nil => intro proc; simp [gatherNear]
  | cons o t ih =>
    intro proc
    by_cases ho : o ∈ proc
    · simp only [gatherNear, if_pos ho]
      refine ⟨(ih proc).1, fun x hx => ?_⟩
      have := (ih proc).2 x hx
      exact ⟨List.mem_cons_of_mem o this.1, this.2.1, this.2.2⟩
    · by_cases hc : hasCoords (rowAt df o) = true
      · by_cases hd : dist la lo ((rowAt df o).latitude.getD 0)
            ((rowAt df o).longitude.getD 0) ≤ prox
        · simp only [gatherNear, if_neg ho, if_pos hc, if_pos hd]
          have hrec := ih (o :: proc)
          constructor
          · refine List.nodup_cons.mpr ⟨fun hmem => ?_, hrec.1⟩
            exact (hrec.2 o hmem).2.1 (List.mem_cons_self o proc)
          · intro x hx
            rcases List.mem_cons.mp hx with rfl | hx'
            · exact ⟨List.mem_cons_self x t, ho, hc⟩
            · have := hrec.2 x hx'
              exact ⟨List.mem_cons_of_mem o this.1,
                fun hp => this.2.1 (List.mem_cons_of_mem o hp), this.2.2⟩
        · simp only [gatherNear, if_neg ho, if_pos hc, if_neg hd]
          refine ⟨(ih proc).1, fun x hx => ?_⟩
          have := (ih proc).2 x hx
          exact ⟨List.mem_cons_of_mem o this.1, this.2.1, this.2.2⟩
      · simp only [gatherNear, if_neg ho, if_neg hc]
        refine ⟨(ih proc).1, fun x hx => ?_⟩
        have := (ih proc).2 x hx
        exact ⟨List.mem_cons_of_mem o this.1, this.2.1, this.2.2⟩

theorem gatherNear_snd_mem (dist : ℚ → ℚ → ℚ → ℚ → ℚ) (prox : ℚ)
    (df : List Record) (la lo : ℚ) :
    ∀ (l proc : List Nat) (x : Nat),
      x ∈ (gatherNear dist prox df la lo l proc).2 ↔
        x ∈ (gatherNear dist prox df la lo l proc).1 ∨ x ∈ proc := by
  intro l
  induction l with
  | nil => intro proc x; simp [gatherNear]
  | cons o t ih =>
    intro proc x
    by_cases ho : o ∈ proc
    · simp only [gatherNear, if_pos ho]
      exact ih proc x
    · by_cases hc : hasCoords (rowAt df o) = true
      · by_cases hd : dist la lo ((rowAt df o).latitude.getD 0)
            ((rowAt df o).longitude.getD 0) ≤ prox
        · simp only [gatherNear, if_neg ho, if_pos hc, if_pos hd]
          rw [ih (o :: proc) x]
          simp only [List.mem_cons]
          tauto
        · simp only [gatherNear, if_neg ho, if_pos hc, if_neg hd]
          exact ih proc x
      · simp only [gatherNear, if_neg ho, if_neg hc]
        exact ih proc x

theorem geoLoop_flatten_spec (dist : ℚ → ℚ → ℚ → ℚ → ℚ) (prox : ℚ)
    (df : List Record) (noZip : List Nat) :
    ∀ (pend proc : List Nat),
      (((geoLoop dist prox df noZip pend proc).map Prod.snd).flatten).Nodup ∧
      ∀ x ∈ ((geoLoop dist prox df noZip pend proc).map Prod.snd).flatten,
        (x ∈ pend ∨ x ∈ noZip) ∧ x ∉ proc := by
  intro pend
  induction pend with
  | nil => intro proc; simp [geoLoop]
  | cons i t ih =>
    intro proc
    by_cases hi : i ∈ proc
    · simp only [geoLoop, if_pos hi]
      refine ⟨(ih proc).1, fun x hx => ?_⟩
      have := (ih proc).2 x hx
      exact ⟨this.1.imp_left (List.mem_cons_of_mem i), this.2⟩
    · by_cases hc : hasCoords (rowAt df i) = true
      · simp only [geoLoop, if_neg hi, if_pos hc, List.map_cons, List.flatten_cons]
        have hfst := gatherNear_fst_spec dist prox df ((rowAt df i).latitude.getD 0)
          ((rowAt df i).longitude.getD 0) noZip (i :: proc)
        have hsnd := gatherNear_snd_mem dist prox df ((rowAt df i).latitude.getD 0)
          ((rowAt df i).longitude.getD 0) noZip (i :: proc)
        have hrec := ih (gatherNear dist prox df ((rowAt df i).latitude.getD 0)
          ((rowAt df i).longitude.getD 0) noZip (i :: proc)).2
        constructor
        · refine List.Nodup.append ?_ hrec.1 ?_
          · refine List.nodup_cons.mpr ⟨fun hmem => ?_, hfst.1⟩
            exact (hfst.2 i hmem).2.1 (List.mem_cons_self i proc)
          · intro x hx hx'
            have hxin : x ∈ (gatherNear dist prox df
                ((rowAt df i).latitude.getD 0) ((rowAt df i).longitude.getD 0)
                noZip (i :: proc)).2 := by
              rcases List.mem_cons.mp hx with rfl | hx2
              · exact (hsnd x).mpr (Or.inr (List.mem_cons_self x proc))
              · exact (hsnd x).mpr (Or.inl hx2)
            exact (hrec.2 x hx').2 hxin
        · intro x hx
          rcases List.mem_append.mp hx with hx1 | hx2
          · rcases List.mem_cons.mp hx1 with rfl | hx3
            · exact ⟨Or.inl (List.mem_cons_self x t), hi⟩
            · have := hfst.2 x hx3
              exact ⟨Or.inr this.1,
                fun hp => this.2.1 (List.mem_cons_of_mem i hp)⟩
          · have := hrec.2 x hx2
            refine ⟨this.1.imp_left (List.mem_cons_of_mem i), fun hp => this.2 ?_⟩
            exact (hsnd x).mpr (Or.inr (List.mem_cons_of_mem i hp))
      · simp only [geoLoop, if_neg hi, if_neg hc, List.map_cons, List.flatten_cons]
        have hrec := ih (i :: proc)
        constructor
        · refine List.Nodup.append (by simp) hrec.1 ?_
          intro x hx hx'
          rcases List.mem_singleton.mp hx with rfl
          exact (hrec.2 x hx').2 (List.mem_cons_self x proc)
        · intro x hx
          rcases List.mem_append.mp hx with hx1 | hx2
          · rcases List.mem_singleton.mp hx1 with rfl
            exact ⟨Or.inl (List.mem_cons_self x t), hi⟩
          · have := hrec.2 x hx2
            exact ⟨this.1.imp_left (List.mem_cons_of_mem i),
              fun hp => this.2 (List.mem_cons_of_mem i hp)⟩

theorem geoLoop_cover (dist : ℚ → ℚ → ℚ → ℚ → ℚ) (prox : ℚ)
    (df : List Record) (noZip : List Nat) :
    ∀ (pend proc : List Nat) (x : Nat), x ∈ pend →
      x ∈ proc ∨
        x ∈ ((geoLoop dist prox df noZip pend proc).map Prod.snd).flatten := by
  intro pend
  induction pend with
  | nil => intro proc x hx; cases hx
  | cons i t ih =>
    intro proc x hx
    by_cases hi : i ∈ proc
    · simp only [geoLoop, if_pos hi]
      rcases List.mem_cons.mp hx with rfl | hx'
      · exact Or.inl hi
      · exact ih proc x hx'
    · by_cases hc : hasCoords (rowAt df i) = true
      · simp only [geoLoop, if_neg hi, if_pos hc, List.map_cons, List.flatten_cons]
        rcases List.mem_cons.mp hx with rfl | hx'
        · exact Or.inr (List.mem_append_left _ (List.mem_cons_self x _))
        · rcases ih (gatherNear dist prox df ((rowAt df i).latitude.getD 0)
              ((rowAt df i).longitude.getD 0) noZip (i :: proc)).2 x hx' with
            hp | hf
          · rcases (gatherNear_snd_mem dist prox df _ _ noZip (i :: proc) x).mp hp
              with h1 | h2
            · exact Or.inr (List.mem_append_left _ (List.mem_cons_of_mem i h1))
            · rcases List.mem_cons.mp h2 with rfl | h3
              · exact Or.inr (List.mem_append_left _ (List.mem_cons_self x _))
              · exact Or.inl h3
          · exact Or.inr (List.mem_append_right _ hf)
      · simp only [geoLoop, if_neg hi, if_neg hc, List.map_cons, List.flatten_cons]
        rcases List.mem_cons.mp hx with rfl | hx'
        · exact Or.inr (List.mem_append_left _ (List.mem_singleton_self x))
        · rcases ih (i :: proc) x hx' with hp | hf
          · rcases List.mem_cons.mp hp with rfl | h3
            · exact Or.inr (List.mem_append_left _ (List.mem_singleton_self x))
            · exact Or.inl h3
          · exact Or.inr (List.mem_append_right _ hf)

theorem geoLoop_no_geo_singleton (dist : ℚ → ℚ → ℚ → ℚ → ℚ) (prox : ℚ)
    (df : List Record) (noZip : List Nat) (i : Nat)
    (hc : hasCoords (rowAt df i) = false) :
    ∀ (pend proc : List Nat), i ∈ pend → i ∉ proc →
      ("no_geo_" ++ toString i, [i]) ∈ geoLoop dist prox df noZip pend proc := by
  intro pend
  induction pend with
  | nil => intro proc h _; cases h
  | cons j t ih =>
    intro proc hpend hproc
    by_cases hj : j ∈ proc
    · simp only [geoLoop, if_pos hj]
      rcases List.mem_cons.mp hpend with rfl | hpend'
      · exact absurd hj hproc
      · exact ih proc hpend' hproc
    · by_cases hjc : hasCoords (rowAt df j) = true
      · have hij : i ≠ j := by
          intro h
          rw [h, hjc] at hc
          cases hc
        have hpend' : i ∈ t := by
          rcases List.mem_cons.mp hpend with h | h
          · exact absurd h hij
          · exact h
        simp only [geoLoop, if_neg hj, if_pos hjc]
        refine List.mem_cons_of_mem _ (ih _ hpend' ?_)
        intro hmem
        rcases (gatherNear_snd_mem dist prox df ((rowAt df j).latitude.getD 0)
            ((rowAt df j).longitude.getD 0) noZip (j :: proc) i).mp hmem with
          h1 | h2
        · have := (gatherNear_fst_spec dist prox df _ _ noZip (j :: proc)).2 i h1
          rw [this.2.2] at hc
          cases hc
        · rcases List.mem_cons.mp h2 with h4 | h3
          · exact hij h4
          · exact hproc h3
      · simp only [geoLoop, if_neg hj, if_neg hjc]
        by_cases hij : i = j
        · subst hij
          exact List.mem_cons_self _ _
        · have hpend' : i ∈ t := by
            rcases List.mem_cons.mp hpend with h | h
            · exact absurd h hij
            · exact h
          refine List.mem_cons_of_mem _ (ih (j :: proc) hpend' ?_)
          intro hmem
          rcases List.mem_cons.mp hmem with h4 | h3
          · exact hij h4
          · exact hproc h3

theorem geoLoop_cluster_mem (dist : ℚ → ℚ → ℚ → ℚ → ℚ) (prox : ℚ)
    (df : List Record) (noZip : List Nat) (i : Nat)
    (hc : hasCoords (rowAt df i) = true) :
    ∀ (pend proc : List Nat), i ∈ pend → i ∉ proc →
      ∃ (seed : Nat) (members : List Nat),
        ("geo_cluster_" ++ toString seed, members) ∈
          geoLoop dist prox df noZip pend proc ∧ i ∈ members := by
  intro pend
  induction pend with
  | nil => intro proc h _; cases h
  | cons j t ih =>
    intro proc hpend hproc
    by_cases hj : j ∈ proc
    · simp only [geoLoop, if_pos hj]
      rcases List.mem_cons.mp hpend with rfl | hpend'
      · exact absurd hj hproc
      · exact ih proc hpend' hproc
    · by_cases hjc : hasCoords (rowAt df j) = true
      · simp only [geoLoop, if_neg hj, if_pos hjc]
        by_cases hij : i = j
        · subst hij
          exact ⟨i, _, List.mem_cons_self _ _, List.mem_cons_self _ _⟩
        · have hpend' : i ∈ t := by
            rcases List.mem_cons.mp hpend with h | h
            · exact absurd h hij
            · exact h
          by_cases hmem : i ∈ (gatherNear dist prox df
              ((rowAt df j).latitude.getD 0) ((rowAt df j).longitude.getD 0)
              noZip (j :: proc)).1
          · exact ⟨j, _, List.mem_cons_self _ _, List.mem_cons_of_mem j hmem⟩
          · have hnp : i ∉ (gatherNear dist prox df
                ((rowAt df j).latitude.getD 0) ((rowAt df j).longitude.getD 0)
                noZip (j :: proc)).2 := by
              intro hin
              rcases (gatherNear_snd_mem dist prox df _ _ noZip (j :: proc) i).mp
                hin with h1 | h2
              · exact hmem h1
              · rcases List.mem_cons.mp h2 with h4 | h3
                · exact hij h4
                · exact hproc h3
            rcases ih _ hpend' hnp with ⟨seed, members, hblk, himem⟩
            exact ⟨seed, members, List.mem_cons_of_mem _ hblk, himem⟩
      · have hij : i ≠ j := by
          intro h
          rw [h] at hc
          exact hjc hc
        have hpend' : i ∈ t := by
          rcases List.mem_cons.mp hpend with h | h
          · exact absurd h hij
          · exact h
        simp only [geoLoop, if_neg hj, if_neg hjc]
        have hnp : i ∉ j :: proc := by
          intro hmem
          rcases List.mem_cons.mp hmem with h4 | h3
          · exact hij h4
          · exact hproc h3
        rcases ih (j :: proc) hpend' hnp with ⟨seed, members, hblk, himem⟩
        exact ⟨seed, members, List.mem_cons_of_mem _ hblk, himem⟩

theorem mem_zipIndices (df : List Record) (z : String) (i : Nat) :
    i ∈ zipIndices df z ↔ i < df.length ∧ (rowAt df i).zip_code = some z := by
  simp [zipIndices, List.mem_filter, List.mem_range]

theorem zipIndices_nodup (df : List Record) (z : String) :
    (zipIndices df z).Nodup :=
  (List.nodup_range _).filter _

theorem mem_distinctZips_ne_empty (df : List Record) (z : String)
    (h : z ∈ distinctZips df) : z ≠ "" := by
  unfold distinctZips at h
  rw [List.mem_dedup] at h
  rcases List.mem_filterMap.mp h with ⟨r, _, hr⟩
  by_cases ht : zipNonEmpty r.zip_code = true
  · rw [if_pos ht] at hr
    unfold zipNonEmpty at ht
    cases hz : r.zip_code with
    | none => rw [hz] at ht; cases ht
    | some s =>
      rw [hz] at hr ht
      cases hr
      simpa using ht
  · rw [if_neg ht] at hr
    cases hr

theorem mem_distinctZips_of (df : List Record) (z : String) (i : Nat)
    (hi : i < df.length) (hz : (rowAt df i).zip_code = some z) (hne : z ≠ "") :
    z ∈ distinctZips df := by
  unfold distinctZips
  rw [List.mem_dedup]
  refine List.mem_filterMap.mpr ⟨rowAt df i, ?_, ?_⟩
  · unfold rowAt
    rw [List.getD_eq_getElem?_getD, List.getElem?_eq_getElem hi]
    exact List.getElem_mem hi
  · have ht : zipNonEmpty (rowAt df i).zip_code = true := by
      rw [hz]
      simpa [zipNonEmpty] using hne
    rw [if_pos ht, hz]

theorem zipBlocks_union (df : List Record) :
    blocksUnion (zipBlocks df) = ((distinctZips df).map (zipIndices df)).flatten := by
  unfold blocksUnion zipBlocks
  rw [List.map_map]
  rfl

theorem mem_zipUnion (df : List Record) (i : Nat) :
    i ∈ blocksUnion (zipBlocks df) ↔
      i < df.length ∧ zipNonEmpty (rowAt df i).zip_code = true := by
  rw [zipBlocks_union]
  rw [List.mem_flatten]
  constructor
  · rintro ⟨l, hl, hil⟩
    rcases List.mem_map.mp hl with ⟨z, hz, rfl⟩
    rcases (mem_zipIndices df z i).mp hil with ⟨hlen, hzip⟩
    refine ⟨hlen, ?_⟩
    rw [hzip]
    unfold zipNonEmpty
    simpa using mem_distinctZips_ne_empty df z hz
  · rintro ⟨hlen, ht⟩
    cases hz : (rowAt df i).zip_code with
    | none => rw [hz] at ht; cases ht
    | some s =>
      have hne : s ≠ "" := by
        rw [hz] at ht
        simpa [zipNonEmpty] using ht
      refine ⟨zipIndices df s, ?_, (mem_zipIndices df s i).mpr ⟨hlen, hz⟩⟩
      exact List.mem_map.mpr ⟨s, mem_distinctZips_of df s i hlen hz hne, rfl⟩

theorem zipUnion_nodup (df : List Record) : (blocksUnion (zipBlocks df)).Nodup := by
  rw [zipBlocks_union]
  rw [List.nodup_flatten]
  constructor
  · intro l hl
    rcases List.mem_map.mp hl with ⟨z, _, rfl⟩
    exact zipIndices_nodup df z
  · rw [List.pairwise_map]
    have hnd : (distinctZips df).Nodup := List.nodup_dedup _
    refine hnd.imp ?_
    intro a b hab
    intro i hia hib
    rcases (mem_zipIndices df a i).mp hia with ⟨_, ha⟩
    rcases (mem_zipIndices df b i).mp hib with ⟨_, hb⟩
    rw [ha] at hb
    exact hab (Option.some.inj hb)

theorem mem_noZipIndices (df : List Record) (i : Nat) :
    i ∈ noZipIndices df ↔
      i < df.length ∧ zipNonEmpty (rowAt df i).zip_code = false := by
  simp [noZipIndices, List.mem_filter, List.mem_range, Bool.not_eq_true]

/-- C1: `block_by_zip_and_proximity` covers the input exactly — the
concatenation of all blocks' index lists is duplicate-free and its set is
exactly the input index set — and the blocks sort the records as
described: a record with a non-empty zip lands in the zip pass, a
zip-less record with coordinates lands in some `geo_cluster_*` block, and
a record with neither gets its own singleton `no_geo_<i>` block. -/
theorem blocker_coverage (dist : ℚ → ℚ → ℚ → ℚ → ℚ) (prox : ℚ)
    (df : List Record) :
    (blocksUnion (block_by_zip_and_proximity dist prox df)).Nodup ∧
    (blocksUnion (block_by_zip_and_proximity dist prox df)).toFinset =
      (List.range df.length).toFinset ∧
    (∀ i : Nat, i < df.length → zipNonEmpty (rowAt df i).zip_code = true →
      i ∈ blocksUnion (zipBlocks df)) ∧
    (∀ i : Nat, i < df.length → zipNonEmpty (rowAt df i).zip_code = false →
      hasCoords (rowAt df i) = true →
      ∃ (seed : Nat) (members : List Nat),
        ("geo_cluster_" ++ toString seed, members) ∈
          block_by_zip_and_proximity dist prox df ∧ i ∈ members) ∧
    (∀ i : Nat, i < df.length → zipNonEmpty (rowAt df i).zip_code = false →
      hasCoords (rowAt df i) = false →
      ("no_geo_" ++ toString i, [i]) ∈ block_by_zip_and_proximity dist prox df) := by
  have hsplit : blocksUnion (block_by_zip_and_proximity dist prox df) =
      blocksUnion (zipBlocks df) ++
      ((geoLoop dist prox df (noZipIndices df) (noZipIndices df) []).map
        Prod.snd).flatten := by
    unfold block_by_zip_and_proximity blocksUnion
    rw [List.map_append, List.flatten_append]
  have hgeo := geoLoop_flatten_spec dist prox df (noZipIndices df)
    (noZipIndices df) []
  have hgcov := geoLoop_cover dist prox df (noZipIndices df) (noZipIndices df) []
  have hgeo_mem : ∀ x ∈ ((geoLoop dist prox df (noZipIndices df)
      (noZipIndices df) []).map Prod.snd).flatten,
      x < df.length ∧ zipNonEmpty (rowAt df x).zip_code = false := by
    intro x hx
    have h1 := (hgeo.2 x hx).1
    have h2 : x ∈ noZipIndices df := by
      rcases h1 with h | h <;> exact h
    exact (mem_noZipIndices df x).mp h2
  refine ⟨?_, ?_, ?_, ?_, ?_⟩
  · rw [hsplit]
    refine List.Nodup.append (zipUnion_nodup df) hgeo.1 ?_
    intro x hxz hxg
    have hz := ((mem_zipUnion df x).mp hxz).2
    have hg := (hgeo_mem x hxg).2
    rw [hz] at hg
    cases hg
  · ext x
    rw [hsplit]
    simp only [List.mem_toFinset, List.mem_append, List.mem_range]
    constructor
    · rintro (hx | hx)
      · exact ((mem_zipUnion df x).mp hx).1
      · exact (hgeo_mem x hx).1
    · intro hx
      by_cases ht : zipNonEmpty (rowAt df x).zip_code = true
      · exact Or.inl ((mem_zipUnion df x).mpr ⟨hx, ht⟩)
      · have hnz : x ∈ noZipIndices df :=
          (mem_noZipIndices df x).mpr ⟨hx, by simpa using ht⟩
        rcases hgcov x hnz with h | h
        · cases h
        · exact Or.inr h
  · intro i hi ht
    exact (mem_zipUnion df i).mpr ⟨hi, ht⟩
  · intro i hi ht hc
    have hnz : i ∈ noZipIndices df := (mem_noZipIndices df i).mpr ⟨hi, ht⟩
    rcases geoLoop_cluster_mem dist prox df (noZipIndices df) i hc
      (noZipIndices df) [] hnz (by simp) with ⟨seed, members, hblk, himem⟩
    refine ⟨seed, members, ?_, himem⟩
    unfold block_by_zip_and_proximity
    exact List.mem_append_right _ hblk
  · intro i hi ht hc
    have hnz : i ∈ noZipIndices df := (mem_noZipIndices df i).mpr ⟨hi, ht⟩
    have hblk := geoLoop_no_geo_singleton dist prox df (noZipIndices df) i hc
      (noZipIndices df) [] hnz (by simp)
    unfold block_by_zip_and_proximity
    exact List.mem_append_right _ hblk

end ScrappingLands
